/-
Verification of the brick-map voxel world and its two-level DDA ray
traversal (src/showcase.js).

Part 1 embeds the `BrickMapWorld` class: the coarse grid is a
`Uint32Array` (modelled as a function with values reduced mod 2^32 on
write), bricks are `Uint8Array`s of size B^3*4 (modelled as functions
with byte-truncating, bounds-guarded writes, like JS typed arrays), and
the brick store is a JS `Map` (modelled as an insertion-ordered
association list).

Part 2 embeds the GLSL traversal (`intersectAABB`, `traceBrick`,
`traceRay`) over an extended-rational arithmetic `XF` mirroring IEEE
float behaviour for the exactly-representable values the claims use:
signed infinities from division by zero, a NaN element, and GLSL's
`min`/`max`/comparison conventions.
-/
import Mathlib

/-- A 4-channel voxel record, each channel a byte value. -/
structure VoxelRec where
  r : Nat
  g : Nat
  b : Nat
  a : Nat
deriving DecidableEq, Repr

/-- JS `Map.get` on an insertion-ordered association list. -/
def mapGet (m : List (Nat × (Nat → Nat))) (k : Nat) : Option (Nat → Nat) :=
  match m with
  | [] => none
  | (k2, v) :: rest => if k2 = k then some v else mapGet rest k

/-- JS `Map.set`: replace in place if the key exists, else append. -/
def mapSet (m : List (Nat × (Nat → Nat))) (k : Nat) (v : Nat → Nat) :
    List (Nat × (Nat → Nat)) :=
  match m with
  | [] => [(k, v)]
  | (k2, v2) :: rest =>
    if k2 = k then (k, v) :: rest else (k2, v2) :: mapSet rest k v

/-- JS `Uint8Array` write `buf[i] = v`: out-of-range writes are ignored,
stored values are reduced mod 256 (`ToUint8`). -/
def u8write (len : Nat) (buf : Nat → Nat) (i : Int) (v : Int) : Nat → Nat :=
  if 0 ≤ i ∧ i < (len : Int) then
    Function.update buf i.toNat ((v.emod 256).toNat)
  else buf

/-- JS `Uint8Array` read `buf[i]` (used only at in-range indices). -/
def u8read (len : Nat) (buf : Nat → Nat) (i : Int) : Nat :=
  if 0 ≤ i ∧ i < (len : Int) then buf i.toNat else 0

/-- State of a `BrickMapWorld` (src/showcase.js, class BrickMapWorld). -/
structure World where
  coarseSize : Nat
  brickSize : Nat
  coarseGrid : Nat → Nat
  bricks : List (Nat × (Nat → Nat))
  nextBrickIndex : Nat
  atlasSize : Nat
  voxelCount : Nat
  brickCount : Nat

/-- Effective voxel resolution `worldSize = coarseSize * brickSize`. -/
def World.worldSize (w : World) : Nat := w.coarseSize * w.brickSize

/-- The `BrickMapWorld` constructor. -/
def mkWorld (coarseSize brickSize : Nat) : World where
  coarseSize := coarseSize
  brickSize := brickSize
  coarseGrid := fun _ => 0
  bricks := []
  nextBrickIndex := 1
  atlasSize := 64
  voxelCount := 0
  brickCount := 0

/-- Method `_getCoarseIndex`: linear index into the coarse grid, `-1` when
the coarse coordinate is out of range. -/
def World.getCoarseIndex (w : World) (cx cy cz : Int) : Int :=
  if cx < 0 ∨ (w.coarseSize : Int) ≤ cx ∨ cy < 0 ∨ (w.coarseSize : Int) ≤ cy ∨
      cz < 0 ∨ (w.coarseSize : Int) ≤ cz then
    -1
  else
    cx + cy * (w.coarseSize : Int) + cz * (w.coarseSize : Int) * (w.coarseSize : Int)

/-- Method `_getBrickLocalIndex`: byte offset of a voxel inside a brick. -/
def brickLocalIndex (B : Nat) (lx ly lz : Int) : Int :=
  (lx + ly * (B : Int) + lz * (B : Int) * (B : Int)) * 4

/-- Byte length of one brick buffer (`B^3` RGBA records). -/
def brickLen (B : Nat) : Nat := B * B * B * 4

/-- Method `_getOrCreateBrick`.  Returns the updated world and, when the
coordinate is valid, the key and contents of the (possibly fresh) brick;
the key is returned so that the in-place JS mutation of the brick array
can be modelled as a write-back under that key. -/
def World.getOrCreateBrick (w : World) (cx cy cz : Int) :
    World × Option (Nat × (Nat → Nat)) :=
  let coarseIdx := w.getCoarseIndex cx cy cz
  if coarseIdx < 0 then (w, none)
  else
    let brickIndex := w.coarseGrid coarseIdx.toNat
    if brickIndex = 0 then
      let k := w.nextBrickIndex
      let w2 : World := { w with
        nextBrickIndex := w.nextBrickIndex + 1
        coarseGrid := Function.update w.coarseGrid coarseIdx.toNat (k % 2 ^ 32)
        bricks := mapSet w.bricks k (fun _ => 0)
        brickCount := w.brickCount + 1 }
      (w2, (mapGet w2.bricks k).map (fun d => (k, d)))
    else
      (w, (mapGet w.bricks brickIndex).map (fun d => (brickIndex, d)))

/-- Method `setVoxel(x,y,z,r,g,b,a)`. -/
def World.setVoxel (w : World) (x y z r g b a : Int) : World × Bool :=
  if x < 0 ∨ (w.worldSize : Int) ≤ x ∨ y < 0 ∨ (w.worldSize : Int) ≤ y ∨
      z < 0 ∨ (w.worldSize : Int) ≤ z then
    (w, false)
  else
    let cx := x.fdiv (w.brickSize : Int)
    let cy := y.fdiv (w.brickSize : Int)
    let cz := z.fdiv (w.brickSize : Int)
    let lx := x.tmod (w.brickSize : Int)
    let ly := y.tmod (w.brickSize : Int)
    let lz := z.tmod (w.brickSize : Int)
    match w.getOrCreateBrick cx cy cz with
    | (w2, none) => (w2, false)
    | (w2, some kd) =>
      let len := brickLen w.brickSize
      let idx := brickLocalIndex w.brickSize lx ly lz
      let d2 := u8write len (u8write len (u8write len (u8write len kd.2 idx r)
        (idx + 1) g) (idx + 2) b) (idx + 3) a
      ({ w2 with bricks := mapSet w2.bricks kd.1 d2 }, true)

/-- Method `getVoxel(x,y,z)`: `none` models the JS `null` returns. -/
def World.getVoxel (w : World) (x y z : Int) : Option VoxelRec :=
  if x < 0 ∨ (w.worldSize : Int) ≤ x ∨ y < 0 ∨ (w.worldSize : Int) ≤ y ∨
      z < 0 ∨ (w.worldSize : Int) ≤ z then
    none
  else
    let cx := x.fdiv (w.brickSize : Int)
    let cy := y.fdiv (w.brickSize : Int)
    let cz := z.fdiv (w.brickSize : Int)
    let coarseIdx := w.getCoarseIndex cx cy cz
    if coarseIdx < 0 then none
    else
      let brickIndex := w.coarseGrid coarseIdx.toNat
      if brickIndex = 0 then some ⟨0, 0, 0, 0⟩
      else
        match mapGet w.bricks brickIndex with
        | none => none
        | some brick =>
          let len := brickLen w.brickSize
          let idx := brickLocalIndex w.brickSize (x.tmod (w.brickSize : Int))
            (y.tmod (w.brickSize : Int)) (z.tmod (w.brickSize : Int))
          some ⟨u8read len brick idx, u8read len brick (idx + 1),
            u8read len brick (idx + 2), u8read len brick (idx + 3)⟩

/-- Method `clear()`. -/
def World.clear (w : World) : World :=
  { w with
    coarseGrid := fun _ => 0
    bricks := []
    nextBrickIndex := 1
    voxelCount := 0
    brickCount := 0 }

/-- Method `buildAtlas()`: the returned dense buffer, as a function from
byte offset to byte value.  Writes go through the same bounds-guarded
`Uint8Array` semantics as brick writes. -/
def World.buildAtlas (w : World) : Nat → Nat :=
  let atlasVoxelSize := w.atlasSize * w.brickSize
  let len := atlasVoxelSize * atlasVoxelSize * atlasVoxelSize * 4
  w.bricks.foldl (fun buf kv =>
    let idx : Int := (kv.1 : Int) - 1
    let ax := idx.tmod (w.atlasSize : Int)
    let ay := (idx.fdiv (w.atlasSize : Int)).tmod (w.atlasSize : Int)
    let az := idx.fdiv ((w.atlasSize : Int) * (w.atlasSize : Int))
    (List.range w.brickSize).foldl (fun buf lz =>
      (List.range w.brickSize).foldl (fun buf ly =>
        (List.range w.brickSize).foldl (fun buf lx =>
          let srcIdx := (lx + ly * w.brickSize + lz * w.brickSize * w.brickSize) * 4
          let atlasX := ax * (w.brickSize : Int) + (lx : Int)
          let atlasY := ay * (w.brickSize : Int) + (ly : Int)
          let atlasZ := az * (w.brickSize : Int) + (lz : Int)
          let dstIdx := (atlasX + atlasY * (atlasVoxelSize : Int) +
            atlasZ * (atlasVoxelSize : Int) * (atlasVoxelSize : Int)) * 4
          u8write len (u8write len (u8write len (u8write len buf
            dstIdx (kv.2 srcIdx))
            (dstIdx + 1) (kv.2 (srcIdx + 1)))
            (dstIdx + 2) (kv.2 (srcIdx + 2)))
            (dstIdx + 3) (kv.2 (srcIdx + 3)))
          buf)
        buf)
      buf)
    (fun _ => 0)

/-! ### Arithmetic helpers for in-bounds coordinates -/

lemma fdiv_coord_nonneg {x : Int} {B : Nat} (hx : 0 ≤ x) :
    0 ≤ x.fdiv (B : Int) := by
  rw [Int.fdiv_eq_ediv _ (by positivity)]
  exact Int.ediv_nonneg hx (by positivity)

lemma fdiv_coord_lt {x : Int} {C B : Nat} (hx : 0 ≤ x)
    (h : x < (C : Int) * (B : Int)) : x.fdiv (B : Int) < (C : Int) := by
  rcases Nat.eq_zero_or_pos B with hB | hB
  · subst hB; simp at h; omega
  · rw [Int.fdiv_eq_ediv _ (by positivity)]
    rw [Int.ediv_lt_iff_lt_mul (by exact_mod_cast hB)]
    exact h

lemma tmod_coord_nonneg {x : Int} {B : Nat} (hx : 0 ≤ x) :
    0 ≤ x.tmod (B : Int) := by
  rw [Int.tmod_eq_emod hx (by positivity)]
  rcases Nat.eq_zero_or_pos B with hB | hB
  · subst hB; simpa using hx
  · exact Int.emod_nonneg x (by exact_mod_cast hB.ne')

lemma tmod_coord_lt {x : Int} {B : Nat} (hx : 0 ≤ x) (hB : 0 < B) :
    x.tmod (B : Int) < (B : Int) := by
  rw [Int.tmod_eq_emod hx (by positivity)]
  exact Int.emod_lt_of_pos x (by exact_mod_cast hB)

/-- In-bounds coordinates give a non-negative coarse index, computed by
the linear formula. -/
lemma getCoarseIndex_inBounds (w : World) {x y z : Int}
    (hx0 : 0 ≤ x) (hx : x < (w.worldSize : Int))
    (hy0 : 0 ≤ y) (hy : y < (w.worldSize : Int))
    (hz0 : 0 ≤ z) (hz : z < (w.worldSize : Int)) :
    w.getCoarseIndex (x.fdiv (w.brickSize : Int)) (y.fdiv (w.brickSize : Int))
        (z.fdiv (w.brickSize : Int)) =
      x.fdiv (w.brickSize : Int) + y.fdiv (w.brickSize : Int) * (w.coarseSize : Int) +
        z.fdiv (w.brickSize : Int) * (w.coarseSize : Int) * (w.coarseSize : Int) ∧
    0 ≤ w.getCoarseIndex (x.fdiv (w.brickSize : Int)) (y.fdiv (w.brickSize : Int))
        (z.fdiv (w.brickSize : Int)) := by
  have hws : (w.worldSize : Int) = (w.coarseSize : Int) * (w.brickSize : Int) := by
    simp [World.worldSize]
  rw [hws] at hx hy hz
  have hcx0 := fdiv_coord_nonneg (B := w.brickSize) hx0
  have hcy0 := fdiv_coord_nonneg (B := w.brickSize) hy0
  have hcz0 := fdiv_coord_nonneg (B := w.brickSize) hz0
  have hcx := fdiv_coord_lt hx0 hx
  have hcy := fdiv_coord_lt hy0 hy
  have hcz := fdiv_coord_lt hz0 hz
  constructor
  · rw [World.getCoarseIndex, if_neg]
    push_neg
    exact ⟨by omega, by omega, by omega, by omega, by omega, by omega⟩
  · rw [World.getCoarseIndex, if_neg]
    · have h1 : 0 ≤ y.fdiv (w.brickSize : Int) * (w.coarseSize : Int) :=
        Int.mul_nonneg hcy0 (by positivity)
      have h2 : 0 ≤ z.fdiv (w.brickSize : Int) * (w.coarseSize : Int) * (w.coarseSize : Int) :=
        Int.mul_nonneg (Int.mul_nonneg hcz0 (by positivity)) (by positivity)
      omega
    · push_neg
      exact ⟨by omega, by omega, by omega, by omega, by omega, by omega⟩

/-! ### Claim C6: out-of-bounds writes are rejected without mutation -/

/-- Claim C6: for every coordinate with any component outside
`[0, worldSize)`, `setVoxel` returns `false` and leaves the whole
`BrickMapWorld` state unchanged (the returned world is the input world,
so coarse grid, brick store, counters and the index allocator are all
untouched); the function is total, so it never throws. -/
theorem claim_C6_oob_setVoxel_rejected (w : World) (x y z r g b a : Int)
    (h : x < 0 ∨ (w.worldSize : Int) ≤ x ∨ y < 0 ∨ (w.worldSize : Int) ≤ y ∨
      z < 0 ∨ (w.worldSize : Int) ≤ z) :
    w.setVoxel x y z r g b a = (w, false) := by
  rw [World.setVoxel, if_pos h]

/-- Witness for C6: a concrete out-of-bounds write on a fresh 32^3 world. -/
theorem claim_C6_oob_setVoxel_rejected_witness :
    (mkWorld 4 8).setVoxel (-1) 0 0 9 9 9 9 = (mkWorld 4 8, false) :=
  claim_C6_oob_setVoxel_rejected (mkWorld 4 8) (-1) 0 0 9 9 9 9 (by decide)

/-! ### Claim C7: unallocated cells read back as the empty record -/

/-- Claim C7: for an in-bounds coordinate whose coarse cell holds brick
index 0, `getVoxel` returns the record `(0,0,0,0)` (and, being a pure
read in the source, allocates no brick and changes no state — the
embedding of `getVoxel` is a function of the world alone); in
particular, after `clear()` every in-bounds coordinate reads back as
`(0,0,0,0)`. -/
theorem claim_C7_unallocated_reads_empty (w : World) (x y z : Int)
    (hx0 : 0 ≤ x) (hx : x < (w.worldSize : Int))
    (hy0 : 0 ≤ y) (hy : y < (w.worldSize : Int))
    (hz0 : 0 ≤ z) (hz : z < (w.worldSize : Int))
    (hcell : w.coarseGrid ((w.getCoarseIndex (x.fdiv (w.brickSize : Int))
      (y.fdiv (w.brickSize : Int)) (z.fdiv (w.brickSize : Int))).toNat) = 0) :
    w.getVoxel x y z = some ⟨0, 0, 0, 0⟩ ∧
      w.clear.getVoxel x y z = some ⟨0, 0, 0, 0⟩ := by
  have hb : ¬(x < 0 ∨ (w.worldSize : Int) ≤ x ∨ y < 0 ∨ (w.worldSize : Int) ≤ y ∨
      z < 0 ∨ (w.worldSize : Int) ≤ z) := by omega
  have hci := getCoarseIndex_inBounds w hx0 hx hy0 hy hz0 hz
  constructor
  · simp only [World.getVoxel, if_neg hb]
    rw [if_neg (by omega), hcell]
    simp
  · have hb2 : ¬(x < 0 ∨ (w.clear.worldSize : Int) ≤ x ∨ y < 0 ∨
        (w.clear.worldSize : Int) ≤ y ∨ z < 0 ∨ (w.clear.worldSize : Int) ≤ z) := by
      simp only [World.clear, World.worldSize] at *
      omega
    have hci2 : 0 ≤ w.clear.getCoarseIndex (x.fdiv (w.brickSize : Int))
        (y.fdiv (w.brickSize : Int)) (z.fdiv (w.brickSize : Int)) := by
      have : w.clear.getCoarseIndex = w.getCoarseIndex := by
        funext a b c
        simp [World.getCoarseIndex, World.clear]
      rw [this]
      exact hci.2
    simp only [World.getVoxel, if_neg hb2]
    simp only [World.clear] at hci2 ⊢
    rw [if_neg (by omega)]
    simp

/-- Witness for C7 at a concrete never-written coordinate of a fresh
world and of a cleared world. -/
theorem claim_C7_unallocated_reads_empty_witness :
    (mkWorld 2 8).getVoxel 3 4 5 = some ⟨0, 0, 0, 0⟩ ∧
      (mkWorld 2 8).clear.getVoxel 3 4 5 = some ⟨0, 0, 0, 0⟩ :=
  claim_C7_unallocated_reads_empty (mkWorld 2 8) 3 4 5 (by decide) (by decide)
    (by decide) (by decide) (by decide) (by decide) (by decide)

/-! ### Association-list (JS Map) and byte-array lemmas -/

lemma mapGet_mapSet_self (m : List (Nat × (Nat → Nat))) (k : Nat) (v : Nat → Nat) :
    mapGet (mapSet m k v) k = some v := by
  induction m with
  | nil => simp [mapGet, mapSet]
  | cons hd tl ih =>
    by_cases h : hd.1 = k
    · simp [mapGet, mapSet, h]
    · simpa [mapGet, mapSet, h] using ih

lemma mapGet_mapSet_ne (m : List (Nat × (Nat → Nat))) (k k2 : Nat) (v : Nat → Nat)
    (h : k2 ≠ k) : mapGet (mapSet m k v) k2 = mapGet m k2 := by
  have h2 : ¬(k = k2) := fun hh => h hh.symm
  induction m with
  | nil => simp [mapGet, mapSet, h2]
  | cons hd tl ih =>
    by_cases hh : hd.1 = k
    · have h3 : ¬(hd.1 = k2) := by rw [hh]; exact h2
      simp [mapGet, mapSet, hh, h2, h3]
    · by_cases hk2 : hd.1 = k2
      · simp [mapGet, mapSet, hh, hk2, h]
      · simp [mapGet, mapSet, hh, hk2, ih]

lemma u8read_u8write_self (len : Nat) (buf : Nat → Nat) (i v : Int)
    (h0 : 0 ≤ i) (h1 : i < (len : Int)) :
    u8read len (u8write len buf i v) i = (v.emod 256).toNat := by
  simp [u8read, u8write, h0, h1]

lemma u8read_u8write_ne (len : Nat) (buf : Nat → Nat) (i j v : Int)
    (hij : i ≠ j) : u8read len (u8write len buf j v) i = u8read len buf i := by
  unfold u8read u8write
  by_cases hj : 0 ≤ j ∧ j < (len : Int)
  · by_cases hi : 0 ≤ i ∧ i < (len : Int)
    · have hne : i.toNat ≠ j.toNat := by omega
      simp [hi, hj, Function.update_noteq hne]
    · simp [hi, hj]
  · simp [hj]

/-- The in-brick byte offset of a valid local coordinate is in range,
with room for all four channels. -/
lemma brickLocalIndex_bounds {B : Nat} {lx ly lz : Int}
    (hlx0 : 0 ≤ lx) (hlx : lx < (B : Int))
    (hly0 : 0 ≤ ly) (hly : ly < (B : Int))
    (hlz0 : 0 ≤ lz) (hlz : lz < (B : Int)) :
    0 ≤ brickLocalIndex B lx ly lz ∧
      brickLocalIndex B lx ly lz + 3 < (brickLen B : Int) := by
  have hB : (0 : Int) < B := by omega
  have hln : (brickLen B : Int) = (B : Int) * B * B * 4 := by
    unfold brickLen; push_cast; ring
  constructor
  · unfold brickLocalIndex
    have hy : 0 ≤ ly * (B : Int) := mul_nonneg hly0 (by omega)
    have hz : 0 ≤ lz * (B : Int) * B := mul_nonneg (mul_nonneg hlz0 (by omega)) (by omega)
    nlinarith
  · unfold brickLocalIndex
    rw [hln]
    nlinarith [mul_le_mul_of_nonneg_right (show ly ≤ (B : Int) - 1 by omega) (le_of_lt hB),
      mul_le_mul_of_nonneg_right (mul_le_mul_of_nonneg_right
        (show lz ≤ (B : Int) - 1 by omega) (le_of_lt hB)) (le_of_lt hB)]

/-! ### Well-formedness of a world state -/

/-- Well-formedness facts used by the round-trip claims: the brick index
allocator is in its JS-reachable range (positive, and below `2^32` so
the `Uint32Array` store is lossless), and every non-zero coarse cell
refers to a brick present in the store. -/
def World.WF (w : World) : Prop :=
  0 < w.nextBrickIndex ∧ w.nextBrickIndex < 2 ^ 32 ∧
  ∀ i : Nat, w.coarseGrid i ≠ 0 → (mapGet w.bricks (w.coarseGrid i)).isSome

lemma mkWorld_WF (C B : Nat) : (mkWorld C B).WF :=
  ⟨Nat.one_pos, by norm_num [mkWorld], fun _ h => absurd rfl h⟩

/-- Unfolding of `getVoxel` at an in-bounds coordinate whose coarse cell
refers to a stored brick. -/
lemma getVoxel_allocated (w2 : World) (x y z : Int) (k : Nat) (brick : Nat → Nat)
    (len : Nat) (idx : Int)
    (hx0 : 0 ≤ x) (hx : x < (w2.worldSize : Int))
    (hy0 : 0 ≤ y) (hy : y < (w2.worldSize : Int))
    (hz0 : 0 ≤ z) (hz : z < (w2.worldSize : Int))
    (hk : w2.coarseGrid ((w2.getCoarseIndex (x.fdiv (w2.brickSize : Int))
      (y.fdiv (w2.brickSize : Int)) (z.fdiv (w2.brickSize : Int))).toNat) = k)
    (hk0 : k ≠ 0)
    (hbr : mapGet w2.bricks k = some brick)
    (hlen : len = brickLen w2.brickSize)
    (hidx : idx = brickLocalIndex w2.brickSize (x.tmod (w2.brickSize : Int))
      (y.tmod (w2.brickSize : Int)) (z.tmod (w2.brickSize : Int))) :
    w2.getVoxel x y z = some ⟨u8read len brick idx, u8read len brick (idx + 1),
      u8read len brick (idx + 2), u8read len brick (idx + 3)⟩ := by
  subst hlen hidx hk
  have hb : ¬(x < 0 ∨ (w2.worldSize : Int) ≤ x ∨ y < 0 ∨ (w2.worldSize : Int) ≤ y ∨
      z < 0 ∨ (w2.worldSize : Int) ≤ z) := by omega
  have hci := getCoarseIndex_inBounds w2 hx0 hx hy0 hy hz0 hz
  simp only [World.getVoxel, if_neg hb]
  rw [if_neg (by omega : ¬w2.getCoarseIndex (x.fdiv (w2.brickSize : Int))
    (y.fdiv (w2.brickSize : Int)) (z.fdiv (w2.brickSize : Int)) < 0)]
  rw [if_neg hk0, hbr]

/-- Core round-trip computation: an in-bounds `setVoxel` on a
well-formed world stores each channel reduced mod 256, and `getVoxel`
at the same coordinate reads exactly those four bytes back. -/
lemma setVoxel_then_getVoxel (w : World) (x y z r g b a : Int)
    (hW : w.WF)
    (hx0 : 0 ≤ x) (hx : x < (w.worldSize : Int))
    (hy0 : 0 ≤ y) (hy : y < (w.worldSize : Int))
    (hz0 : 0 ≤ z) (hz : z < (w.worldSize : Int)) :
    (w.setVoxel x y z r g b a).1.getVoxel x y z =
      some ⟨(r.emod 256).toNat, (g.emod 256).toNat,
        (b.emod 256).toNat, (a.emod 256).toNat⟩ := by
  have hb : ¬(x < 0 ∨ (w.worldSize : Int) ≤ x ∨ y < 0 ∨ (w.worldSize : Int) ≤ y ∨
      z < 0 ∨ (w.worldSize : Int) ≤ z) := by omega
  have hB : 0 < w.brickSize := by
    rcases Nat.eq_zero_or_pos w.brickSize with h | h
    · exfalso
      have : w.worldSize = 0 := by simp [World.worldSize, h]
      omega
    · exact h
  set cx := x.fdiv (w.brickSize : Int) with hcx
  set cy := y.fdiv (w.brickSize : Int) with hcy
  set cz := z.fdiv (w.brickSize : Int) with hcz
  have hci := getCoarseIndex_inBounds w hx0 hx hy0 hy hz0 hz
  rw [← hcx, ← hcy, ← hcz] at hci
  set ci := (w.getCoarseIndex cx cy cz).toNat with hcidef
  set len := brickLen w.brickSize with hlen
  set idx := brickLocalIndex w.brickSize (x.tmod (w.brickSize : Int))
    (y.tmod (w.brickSize : Int)) (z.tmod (w.brickSize : Int)) with hidx
  have hlb : 0 ≤ idx ∧ idx + 3 < (len : Int) :=
    brickLocalIndex_bounds
      (tmod_coord_nonneg hx0) (tmod_coord_lt hx0 hB)
      (tmod_coord_nonneg hy0) (tmod_coord_lt hy0 hB)
      (tmod_coord_nonneg hz0) (tmod_coord_lt hz0 hB)
  have hreads : ∀ d : Nat → Nat,
      u8read len (u8write len (u8write len (u8write len (u8write len d idx r)
        (idx + 1) g) (idx + 2) b) (idx + 3) a) idx = (r.emod 256).toNat ∧
      u8read len (u8write len (u8write len (u8write len (u8write len d idx r)
        (idx + 1) g) (idx + 2) b) (idx + 3) a) (idx + 1) = (g.emod 256).toNat ∧
      u8read len (u8write len (u8write len (u8write len (u8write len d idx r)
        (idx + 1) g) (idx + 2) b) (idx + 3) a) (idx + 2) = (b.emod 256).toNat ∧
      u8read len (u8write len (u8write len (u8write len (u8write len d idx r)
        (idx + 1) g) (idx + 2) b) (idx + 3) a) (idx + 3) = (a.emod 256).toNat := by
    intro d
    refine ⟨?_, ?_, ?_, ?_⟩
    · rw [u8read_u8write_ne _ _ _ _ _ (by omega), u8read_u8write_ne _ _ _ _ _ (by omega),
        u8read_u8write_ne _ _ _ _ _ (by omega),
        u8read_u8write_self _ _ _ _ (by omega) (by omega)]
    · rw [u8read_u8write_ne _ _ _ _ _ (by omega), u8read_u8write_ne _ _ _ _ _ (by omega),
        u8read_u8write_self _ _ _ _ (by omega) (by omega)]
    · rw [u8read_u8write_ne _ _ _ _ _ (by omega),
        u8read_u8write_self _ _ _ _ (by omega) (by omega)]
    · rw [u8read_u8write_self _ _ _ _ (by omega) (by omega)]
  by_cases hcell : w.coarseGrid ci = 0
  · -- the coarse cell was empty: a fresh brick is allocated and written
    have hgo : w.getOrCreateBrick cx cy cz =
        ({ w with
          nextBrickIndex := w.nextBrickIndex + 1
          coarseGrid := Function.update w.coarseGrid ci (w.nextBrickIndex % 2 ^ 32)
          bricks := mapSet w.bricks w.nextBrickIndex (fun _ => 0)
          brickCount := w.brickCount + 1 },
          some (w.nextBrickIndex, fun _ => 0)) := by
      simp only [World.getOrCreateBrick]
      rw [if_neg (by omega : ¬w.getCoarseIndex cx cy cz < 0), if_pos hcell]
      simp [mapGet_mapSet_self]
    have hset : w.setVoxel x y z r g b a =
        ({ w with
          nextBrickIndex := w.nextBrickIndex + 1
          coarseGrid := Function.update w.coarseGrid ci (w.nextBrickIndex % 2 ^ 32)
          bricks := mapSet (mapSet w.bricks w.nextBrickIndex (fun _ => 0))
            w.nextBrickIndex
            (u8write len (u8write len (u8write len (u8write len (fun _ => 0) idx r)
              (idx + 1) g) (idx + 2) b) (idx + 3) a)
          brickCount := w.brickCount + 1 }, true) := by
      simp only [World.setVoxel, if_neg hb]
      rw [hgo]
    have hfin : (w.setVoxel x y z r g b a).1.getVoxel x y z =
        some ⟨u8read len (u8write len (u8write len (u8write len (u8write len
            (fun _ => 0) idx r) (idx + 1) g) (idx + 2) b) (idx + 3) a) idx,
          u8read len (u8write len (u8write len (u8write len (u8write len
            (fun _ => 0) idx r) (idx + 1) g) (idx + 2) b) (idx + 3) a) (idx + 1),
          u8read len (u8write len (u8write len (u8write len (u8write len
            (fun _ => 0) idx r) (idx + 1) g) (idx + 2) b) (idx + 3) a) (idx + 2),
          u8read len (u8write len (u8write len (u8write len (u8write len
            (fun _ => 0) idx r) (idx + 1) g) (idx + 2) b) (idx + 3) a) (idx + 3)⟩ := by
      rw [hset]
      exact getVoxel_allocated
        { w with
          nextBrickIndex := w.nextBrickIndex + 1
          coarseGrid := Function.update w.coarseGrid ci (w.nextBrickIndex % 2 ^ 32)
          bricks := mapSet (mapSet w.bricks w.nextBrickIndex (fun _ => 0))
            w.nextBrickIndex
            (u8write len (u8write len (u8write len (u8write len (fun _ => 0) idx r)
              (idx + 1) g) (idx + 2) b) (idx + 3) a)
          brickCount := w.brickCount + 1 }
        x y z w.nextBrickIndex
        (u8write len (u8write len (u8write len (u8write len (fun _ => 0) idx r)
          (idx + 1) g) (idx + 2) b) (idx + 3) a)
        len idx hx0 hx hy0 hy hz0 hz
        (show Function.update w.coarseGrid ci (w.nextBrickIndex % 2 ^ 32) ci =
            w.nextBrickIndex by
          rw [Function.update_same]
          exact Nat.mod_eq_of_lt hW.2.1)
        (by have := hW.1; omega)
        (mapGet_mapSet_self _ _ _) rfl rfl
    rcases hreads (fun _ => 0) with ⟨h1, h2, h3, h4⟩
    rw [hfin, h1, h2, h3, h4]
  · -- the coarse cell already points at a stored brick, written in place
    have hsome := hW.2.2 ci hcell
    rcases Option.isSome_iff_exists.mp hsome with ⟨d, hd⟩
    have hgo : w.getOrCreateBrick cx cy cz = (w, some (w.coarseGrid ci, d)) := by
      simp only [World.getOrCreateBrick]
      rw [if_neg (by omega : ¬w.getCoarseIndex cx cy cz < 0), if_neg hcell, hd]
      rfl
    have hset : w.setVoxel x y z r g b a =
        ({ w with
          bricks := mapSet w.bricks (w.coarseGrid ci)
            (u8write len (u8write len (u8write len (u8write len d idx r)
              (idx + 1) g) (idx + 2) b) (idx + 3) a) }, true) := by
      simp only [World.setVoxel, if_neg hb]
      rw [hgo]
    have hfin : (w.setVoxel x y z r g b a).1.getVoxel x y z =
        some ⟨u8read len (u8write len (u8write len (u8write len (u8write len
            d idx r) (idx + 1) g) (idx + 2) b) (idx + 3) a) idx,
          u8read len (u8write len (u8write len (u8write len (u8write len
            d idx r) (idx + 1) g) (idx + 2) b) (idx + 3) a) (idx + 1),
          u8read len (u8write len (u8write len (u8write len (u8write len
            d idx r) (idx + 1) g) (idx + 2) b) (idx + 3) a) (idx + 2),
          u8read len (u8write len (u8write len (u8write len (u8write len
            d idx r) (idx + 1) g) (idx + 2) b) (idx + 3) a) (idx + 3)⟩ := by
      rw [hset]
      exact getVoxel_allocated
        { w with
          bricks := mapSet w.bricks (w.coarseGrid ci)
            (u8write len (u8write len (u8write len (u8write len d idx r)
              (idx + 1) g) (idx + 2) b) (idx + 3) a) }
        x y z (w.coarseGrid ci)
        (u8write len (u8write len (u8write len (u8write len d idx r)
          (idx + 1) g) (idx + 2) b) (idx + 3) a)
        len idx hx0 hx hy0 hy hz0 hz
        rfl hcell (mapGet_mapSet_self _ _ _) rfl rfl
    rcases hreads d with ⟨h1, h2, h3, h4⟩
    rw [hfin, h1, h2, h3, h4]

/-! ### Claim C2: exact write/read round trip for byte channels -/

/-- Claim C2: for every in-bounds coordinate and every record whose
channels are integers in `0..255` with `a > 0`, `setVoxel` followed by
`getVoxel` at the same coordinate on the same (well-formed)
`BrickMapWorld` returns exactly the written record. -/
theorem claim_C2_roundtrip (w : World) (x y z r g b a : Int)
    (hW : w.WF)
    (hx0 : 0 ≤ x) (hx : x < (w.worldSize : Int))
    (hy0 : 0 ≤ y) (hy : y < (w.worldSize : Int))
    (hz0 : 0 ≤ z) (hz : z < (w.worldSize : Int))
    (hr : 0 ≤ r ∧ r < 256) (hg : 0 ≤ g ∧ g < 256)
    (hbb : 0 ≤ b ∧ b < 256) (ha : 0 < a ∧ a < 256) :
    (w.setVoxel x y z r g b a).1.getVoxel x y z =
      some ⟨r.toNat, g.toNat, b.toNat, a.toNat⟩ := by
  rw [setVoxel_then_getVoxel w x y z r g b a hW hx0 hx hy0 hy hz0 hz]
  have er : r.emod 256 = r := Int.emod_eq_of_lt hr.1 hr.2
  have eg : g.emod 256 = g := Int.emod_eq_of_lt hg.1 hg.2
  have eb : b.emod 256 = b := Int.emod_eq_of_lt hbb.1 hbb.2
  have ea : a.emod 256 = a := Int.emod_eq_of_lt (by omega) ha.2
  rw [er, eg, eb, ea]

/-- Witness for C2 on a fresh world at a concrete coordinate/record. -/
theorem claim_C2_roundtrip_witness :
    ((mkWorld 2 8).setVoxel 3 4 5 10 20 30 40).1.getVoxel 3 4 5 =
      some ⟨10, 20, 30, 40⟩ :=
  claim_C2_roundtrip (mkWorld 2 8) 3 4 5 10 20 30 40 (mkWorld_WF 2 8)
    (by decide) (by decide) (by decide) (by decide) (by decide) (by decide)
    (by decide) (by decide) (by decide) (by decide)

/-! ### Claim C10: channels are stored reduced modulo 256 -/

/-- Claim C10: for every in-bounds coordinate and arbitrary integer
channel arguments, `setVoxel` stores each of r, g, b, a reduced modulo
256 (the `Uint8Array` element coercion), so the following `getVoxel`
returns the values modulo 256 rather than the arguments themselves; the
exact round trip of C2 therefore holds only for channels already in
`0..255`. -/
theorem claim_C10_mod256_storage (w : World) (x y z r g b a : Int)
    (hW : w.WF)
    (hx0 : 0 ≤ x) (hx : x < (w.worldSize : Int))
    (hy0 : 0 ≤ y) (hy : y < (w.worldSize : Int))
    (hz0 : 0 ≤ z) (hz : z < (w.worldSize : Int)) :
    (w.setVoxel x y z r g b a).1.getVoxel x y z =
      some ⟨(r.emod 256).toNat, (g.emod 256).toNat,
        (b.emod 256).toNat, (a.emod 256).toNat⟩ :=
  setVoxel_then_getVoxel w x y z r g b a hW hx0 hx hy0 hy hz0 hz

/-- Witness for C10: channel 300 reads back as 44, -1 wraps to 255,
256 wraps to 0, 511 wraps to 255. -/
theorem claim_C10_mod256_storage_witness :
    ((mkWorld 2 8).setVoxel 3 4 5 300 (-1) 256 511).1.getVoxel 3 4 5 =
      some ⟨44, 255, 0, 255⟩ :=
  claim_C10_mod256_storage (mkWorld 2 8) 3 4 5 300 (-1) 256 511 (mkWorld_WF 2 8)
    (by decide) (by decide) (by decide) (by decide) (by decide) (by decide)

/-! ### Claim C4: lazy brick allocation -/

lemma getOrCreateBrick_brickCount (w : World) (cx cy cz : Int) :
    (w.getOrCreateBrick cx cy cz).1.brickCount ≤ w.brickCount + 1 := by
  unfold World.getOrCreateBrick
  by_cases h1 : w.getCoarseIndex cx cy cz < 0
  · simp [h1, Nat.le_succ]
  · by_cases h2 : w.coarseGrid (w.getCoarseIndex cx cy cz).toNat = 0
    · simp [h1, h2]
    · simp [h1, h2, Nat.le_succ]

lemma setVoxel_brickCount_le (w : World) (x y z r g b a : Int) :
    (w.setVoxel x y z r g b a).1.brickCount ≤ w.brickCount + 1 := by
  by_cases hbnd : x < 0 ∨ (w.worldSize : Int) ≤ x ∨ y < 0 ∨ (w.worldSize : Int) ≤ y ∨
      z < 0 ∨ (w.worldSize : Int) ≤ z
  · simp [World.setVoxel, hbnd, Nat.le_succ]
  · simp only [World.setVoxel, if_neg hbnd]
    have hg := getOrCreateBrick_brickCount w (x.fdiv (w.brickSize : Int))
      (y.fdiv (w.brickSize : Int)) (z.fdiv (w.brickSize : Int))
    rcases hgo : w.getOrCreateBrick (x.fdiv (w.brickSize : Int))
      (y.fdiv (w.brickSize : Int)) (z.fdiv (w.brickSize : Int)) with ⟨w2, kd⟩
    rw [hgo] at hg
    cases kd with
    | none => simpa [hgo] using hg
    | some kd2 => simpa [hgo] using hg

/-- Unfolding of `setVoxel` when the target coarse cell is empty. -/
lemma setVoxel_fresh_eq (w : World) (x y z r g b a : Int)
    (hb : ¬(x < 0 ∨ (w.worldSize : Int) ≤ x ∨ y < 0 ∨ (w.worldSize : Int) ≤ y ∨
      z < 0 ∨ (w.worldSize : Int) ≤ z))
    (hge : ¬w.getCoarseIndex (x.fdiv (w.brickSize : Int)) (y.fdiv (w.brickSize : Int))
      (z.fdiv (w.brickSize : Int)) < 0)
    (hcell : w.coarseGrid ((w.getCoarseIndex (x.fdiv (w.brickSize : Int))
      (y.fdiv (w.brickSize : Int)) (z.fdiv (w.brickSize : Int))).toNat) = 0) :
    w.setVoxel x y z r g b a =
      ({ w with
        nextBrickIndex := w.nextBrickIndex + 1
        coarseGrid := Function.update w.coarseGrid
          ((w.getCoarseIndex (x.fdiv (w.brickSize : Int)) (y.fdiv (w.brickSize : Int))
            (z.fdiv (w.brickSize : Int))).toNat) (w.nextBrickIndex % 2 ^ 32)
        bricks := mapSet (mapSet w.bricks w.nextBrickIndex (fun _ => 0))
          w.nextBrickIndex
          (u8write (brickLen w.brickSize) (u8write (brickLen w.brickSize)
            (u8write (brickLen w.brickSize) (u8write (brickLen w.brickSize)
              (fun _ => 0)
              (brickLocalIndex w.brickSize (x.tmod (w.brickSize : Int))
                (y.tmod (w.brickSize : Int)) (z.tmod (w.brickSize : Int))) r)
              (brickLocalIndex w.brickSize (x.tmod (w.brickSize : Int))
                (y.tmod (w.brickSize : Int)) (z.tmod (w.brickSize : Int)) + 1) g)
              (brickLocalIndex w.brickSize (x.tmod (w.brickSize : Int))
                (y.tmod (w.brickSize : Int)) (z.tmod (w.brickSize : Int)) + 2) b)
              (brickLocalIndex w.brickSize (x.tmod (w.brickSize : Int))
                (y.tmod (w.brickSize : Int)) (z.tmod (w.brickSize : Int)) + 3) a)
        brickCount := w.brickCount + 1 }, true) := by
  have hgo : w.getOrCreateBrick (x.fdiv (w.brickSize : Int)) (y.fdiv (w.brickSize : Int))
      (z.fdiv (w.brickSize : Int)) =
      ({ w with
        nextBrickIndex := w.nextBrickIndex + 1
        coarseGrid := Function.update w.coarseGrid
          ((w.getCoarseIndex (x.fdiv (w.brickSize : Int)) (y.fdiv (w.brickSize : Int))
            (z.fdiv (w.brickSize : Int))).toNat) (w.nextBrickIndex % 2 ^ 32)
        bricks := mapSet w.bricks w.nextBrickIndex (fun _ => 0)
        brickCount := w.brickCount + 1 },
        some (w.nextBrickIndex, fun _ => 0)) := by
    simp only [World.getOrCreateBrick]
    rw [if_neg hge, if_pos hcell]
    simp [mapGet_mapSet_self]
  simp only [World.setVoxel, if_neg hb]
  rw [hgo]

/-- Unfolding of `setVoxel` when the target coarse cell already refers
to a stored brick. -/
lemma setVoxel_existing_eq (w : World) (x y z r g b a : Int)
    (hb : ¬(x < 0 ∨ (w.worldSize : Int) ≤ x ∨ y < 0 ∨ (w.worldSize : Int) ≤ y ∨
      z < 0 ∨ (w.worldSize : Int) ≤ z))
    (hge : ¬w.getCoarseIndex (x.fdiv (w.brickSize : Int)) (y.fdiv (w.brickSize : Int))
      (z.fdiv (w.brickSize : Int)) < 0)
    (hcell : w.coarseGrid ((w.getCoarseIndex (x.fdiv (w.brickSize : Int))
      (y.fdiv (w.brickSize : Int)) (z.fdiv (w.brickSize : Int))).toNat) ≠ 0)
    (d : Nat → Nat)
    (hd : mapGet w.bricks (w.coarseGrid ((w.getCoarseIndex (x.fdiv (w.brickSize : Int))
      (y.fdiv (w.brickSize : Int)) (z.fdiv (w.brickSize : Int))).toNat)) = some d) :
    w.setVoxel x y z r g b a =
      ({ w with
        bricks := mapSet w.bricks
          (w.coarseGrid ((w.getCoarseIndex (x.fdiv (w.brickSize : Int))
            (y.fdiv (w.brickSize : Int)) (z.fdiv (w.brickSize : Int))).toNat))
          (u8write (brickLen w.brickSize) (u8write (brickLen w.brickSize)
            (u8write (brickLen w.brickSize) (u8write (brickLen w.brickSize) d
              (brickLocalIndex w.brickSize (x.tmod (w.brickSize : Int))
                (y.tmod (w.brickSize : Int)) (z.tmod (w.brickSize : Int))) r)
              (brickLocalIndex w.brickSize (x.tmod (w.brickSize : Int))
                (y.tmod (w.brickSize : Int)) (z.tmod (w.brickSize : Int)) + 1) g)
              (brickLocalIndex w.brickSize (x.tmod (w.brickSize : Int))
                (y.tmod (w.brickSize : Int)) (z.tmod (w.brickSize : Int)) + 2) b)
              (brickLocalIndex w.brickSize (x.tmod (w.brickSize : Int))
                (y.tmod (w.brickSize : Int)) (z.tmod (w.brickSize : Int)) + 3) a) },
        true) := by
  have hgo : w.getOrCreateBrick (x.fdiv (w.brickSize : Int)) (y.fdiv (w.brickSize : Int))
      (z.fdiv (w.brickSize : Int)) =
      (w, some (w.coarseGrid ((w.getCoarseIndex (x.fdiv (w.brickSize : Int))
        (y.fdiv (w.brickSize : Int)) (z.fdiv (w.brickSize : Int))).toNat), d)) := by
    simp only [World.getOrCreateBrick]
    rw [if_neg hge, if_neg hcell, hd]
    rfl
  simp only [World.setVoxel, if_neg hb]
  rw [hgo]

/-- One `setVoxel` call, as data. -/
structure SetCall where
  x : Int
  y : Int
  z : Int
  r : Int
  g : Int
  b : Int
  a : Int

/-- Apply a sequence of `setVoxel` calls (discarding the boolean results,
as the scene generators in the source do). -/
def applySets (w : World) (cs : List SetCall) : World :=
  cs.foldl (fun w2 c => (w2.setVoxel c.x c.y c.z c.r c.g c.b c.a).1) w

/-- Invariant used for claim C4: the world has the given dimensions,
exactly one brick is allocated, and the fixed target coarse cell refers
to it. -/
def OneBrickInv (C B : Nat) (cx0 cy0 cz0 : Int) (w2 : World) : Prop :=
  w2.coarseSize = C ∧ w2.brickSize = B ∧ w2.brickCount = 1 ∧
  w2.coarseGrid ((w2.getCoarseIndex cx0 cy0 cz0).toNat) ≠ 0 ∧
  (mapGet w2.bricks (w2.coarseGrid ((w2.getCoarseIndex cx0 cy0 cz0).toNat))).isSome

lemma setVoxel_preserves_oneBrick (C B : Nat) (cx0 cy0 cz0 : Int) (w2 : World)
    (c : SetCall) (hP : OneBrickInv C B cx0 cy0 cz0 w2)
    (hin : 0 ≤ c.x ∧ c.x < ((C * B : Nat) : Int) ∧ 0 ≤ c.y ∧ c.y < ((C * B : Nat) : Int) ∧
      0 ≤ c.z ∧ c.z < ((C * B : Nat) : Int))
    (hco : c.x.fdiv (B : Int) = cx0 ∧ c.y.fdiv (B : Int) = cy0 ∧ c.z.fdiv (B : Int) = cz0) :
    OneBrickInv C B cx0 cy0 cz0 (w2.setVoxel c.x c.y c.z c.r c.g c.b c.a).1 := by
  obtain ⟨hC, hB, hcnt, hcell, hsome⟩ := hP
  have hws : (w2.worldSize : Int) = ((C * B : Nat) : Int) := by
    simp [World.worldSize, hC, hB]
  have hb : ¬(c.x < 0 ∨ (w2.worldSize : Int) ≤ c.x ∨ c.y < 0 ∨ (w2.worldSize : Int) ≤ c.y ∨
      c.z < 0 ∨ (w2.worldSize : Int) ≤ c.z) := by rw [hws]; omega
  have hfold : c.x.fdiv (w2.brickSize : Int) = cx0 ∧ c.y.fdiv (w2.brickSize : Int) = cy0 ∧
      c.z.fdiv (w2.brickSize : Int) = cz0 := by rw [hB]; exact hco
  have hci := getCoarseIndex_inBounds w2
    hin.1 (by omega) hin.2.2.1 (by omega) hin.2.2.2.2.1 (by omega)
  rw [hfold.1, hfold.2.1, hfold.2.2] at hci
  rcases Option.isSome_iff_exists.mp hsome with ⟨d, hd⟩
  have hset := setVoxel_existing_eq w2 c.x c.y c.z c.r c.g c.b c.a hb
    (by rw [hfold.1, hfold.2.1, hfold.2.2]; omega)
    (by rw [hfold.1, hfold.2.1, hfold.2.2]; exact hcell)
    d (by rw [hfold.1, hfold.2.1, hfold.2.2]; exact hd)
  rw [hset]
  refine ⟨hC, hB, hcnt, ?_, ?_⟩
  · exact hcell
  · rw [hfold.1, hfold.2.1, hfold.2.2]
    show (mapGet (mapSet w2.bricks (w2.coarseGrid ((w2.getCoarseIndex cx0 cy0 cz0).toNat)) _)
      (w2.coarseGrid ((w2.getCoarseIndex cx0 cy0 cz0).toNat))).isSome = true
    rw [mapGet_mapSet_self]
    rfl

lemma setVoxel_clear_oneBrick (w : World) (c : SetCall) (cx0 cy0 cz0 : Int)
    (hin : 0 ≤ c.x ∧ c.x < ((w.coarseSize * w.brickSize : Nat) : Int) ∧
      0 ≤ c.y ∧ c.y < ((w.coarseSize * w.brickSize : Nat) : Int) ∧
      0 ≤ c.z ∧ c.z < ((w.coarseSize * w.brickSize : Nat) : Int))
    (hco : c.x.fdiv (w.brickSize : Int) = cx0 ∧ c.y.fdiv (w.brickSize : Int) = cy0 ∧
      c.z.fdiv (w.brickSize : Int) = cz0) :
    OneBrickInv w.coarseSize w.brickSize cx0 cy0 cz0
      (w.clear.setVoxel c.x c.y c.z c.r c.g c.b c.a).1 := by
  have hws : (w.clear.worldSize : Int) = ((w.coarseSize * w.brickSize : Nat) : Int) := by
    simp [World.worldSize, World.clear]
  have hb : ¬(c.x < 0 ∨ (w.clear.worldSize : Int) ≤ c.x ∨ c.y < 0 ∨
      (w.clear.worldSize : Int) ≤ c.y ∨ c.z < 0 ∨ (w.clear.worldSize : Int) ≤ c.z) := by
    rw [hws]; omega
  have hBc : w.clear.brickSize = w.brickSize := rfl
  have hci := getCoarseIndex_inBounds w.clear
    hin.1 (by omega) hin.2.2.1 (by omega) hin.2.2.2.2.1 (by omega)
  have hfold : c.x.fdiv (w.clear.brickSize : Int) = cx0 ∧
      c.y.fdiv (w.clear.brickSize : Int) = cy0 ∧
      c.z.fdiv (w.clear.brickSize : Int) = cz0 := by rw [hBc]; exact hco
  rw [hfold.1, hfold.2.1, hfold.2.2] at hci
  have hcell0 : w.clear.coarseGrid ((w.clear.getCoarseIndex cx0 cy0 cz0).toNat) = 0 := rfl
  have hset := setVoxel_fresh_eq w.clear c.x c.y c.z c.r c.g c.b c.a hb
    (by rw [hfold.1, hfold.2.1, hfold.2.2]; omega)
    (by rw [hfold.1, hfold.2.1, hfold.2.2]; exact hcell0)
  rw [hset]
  have hnb : w.clear.nextBrickIndex = 1 := rfl
  refine ⟨rfl, rfl, ?_, ?_, ?_⟩
  · show w.clear.brickCount + 1 = 1
    rfl
  · rw [hfold.1, hfold.2.1, hfold.2.2]
    show Function.update w.clear.coarseGrid ((w.clear.getCoarseIndex cx0 cy0 cz0).toNat)
      (w.clear.nextBrickIndex % 2 ^ 32) ((w.clear.getCoarseIndex cx0 cy0 cz0).toNat) ≠ 0
    rw [Function.update_same, hnb]
    norm_num
  · rw [hfold.1, hfold.2.1, hfold.2.2]
    show (mapGet (mapSet (mapSet w.clear.bricks w.clear.nextBrickIndex (fun _ => 0))
        w.clear.nextBrickIndex _)
      (Function.update w.clear.coarseGrid ((w.clear.getCoarseIndex cx0 cy0 cz0).toNat)
        (w.clear.nextBrickIndex % 2 ^ 32)
        ((w.clear.getCoarseIndex cx0 cy0 cz0).toNat))).isSome = true
    rw [Function.update_same, hnb]
    rw [show (1 : Nat) % 2 ^ 32 = 1 from rfl]
    rw [mapGet_mapSet_self]
    rfl

lemma applySets_preserves_oneBrick (C B : Nat) (cx0 cy0 cz0 : Int)
    (calls : List SetCall) (w2 : World)
    (hP : OneBrickInv C B cx0 cy0 cz0 w2)
    (hin : ∀ c ∈ calls, 0 ≤ c.x ∧ c.x < ((C * B : Nat) : Int) ∧ 0 ≤ c.y ∧
      c.y < ((C * B : Nat) : Int) ∧ 0 ≤ c.z ∧ c.z < ((C * B : Nat) : Int))
    (hco : ∀ c ∈ calls, c.x.fdiv (B : Int) = cx0 ∧ c.y.fdiv (B : Int) = cy0 ∧
      c.z.fdiv (B : Int) = cz0) :
    OneBrickInv C B cx0 cy0 cz0 (applySets w2 calls) := by
  induction calls generalizing w2 with
  | nil => exact hP
  | cons c rest ih =>
    have hstep := setVoxel_preserves_oneBrick C B cx0 cy0 cz0 w2 c hP
      (hin c (List.mem_cons_self c rest)) (hco c (List.mem_cons_self c rest))
    exact ih _ hstep (fun d hd => hin d (List.mem_cons_of_mem c hd))
      (fun d hd => hco d (List.mem_cons_of_mem c hd))

/-- Claim C4: each `setVoxel` call grows the brick count by at most one,
and any non-empty sequence of at most `B^3` in-bounds `setVoxel` calls
on a freshly cleared world whose coordinates all fall in one coarse
region allocates exactly one brick. -/
theorem claim_C4_brick_laziness :
    (∀ (w : World) (x y z r g b a : Int),
      (w.setVoxel x y z r g b a).1.brickCount ≤ w.brickCount + 1) ∧
    (∀ (w : World) (calls : List SetCall) (cx0 cy0 cz0 : Int),
      calls ≠ [] →
      calls.length ≤ w.brickSize ^ 3 →
      (∀ c ∈ calls, 0 ≤ c.x ∧ c.x < ((w.coarseSize * w.brickSize : Nat) : Int) ∧
        0 ≤ c.y ∧ c.y < ((w.coarseSize * w.brickSize : Nat) : Int) ∧
        0 ≤ c.z ∧ c.z < ((w.coarseSize * w.brickSize : Nat) : Int)) →
      (∀ c ∈ calls, c.x.fdiv (w.brickSize : Int) = cx0 ∧
        c.y.fdiv (w.brickSize : Int) = cy0 ∧ c.z.fdiv (w.brickSize : Int) = cz0) →
      (applySets w.clear calls).brickCount = 1) := by
  constructor
  · exact setVoxel_brickCount_le
  · intro w calls cx0 cy0 cz0 hne _ hin hco
    match calls, hne with
    | c :: rest, _ =>
      have hP1 := setVoxel_clear_oneBrick w c cx0 cy0 cz0
        (hin c (List.mem_cons_self c rest)) (hco c (List.mem_cons_self c rest))
      have hP := applySets_preserves_oneBrick w.coarseSize w.brickSize cx0 cy0 cz0
        rest _ hP1 (fun d hd => hin d (List.mem_cons_of_mem c hd))
        (fun d hd => hco d (List.mem_cons_of_mem c hd))
      exact hP.2.2.1

/-- Witness for C4: two writes into the same 8^3 region of a cleared
world allocate exactly one brick, and a single call obeys the per-call
bound. -/
theorem claim_C4_brick_laziness_witness :
    ((mkWorld 2 8).setVoxel 0 0 0 1 2 3 4).1.brickCount ≤
      (mkWorld 2 8).brickCount + 1 ∧
    (applySets (mkWorld 2 8).clear
      [⟨1, 2, 3, 9, 9, 9, 9⟩, ⟨4, 5, 6, 8, 8, 8, 8⟩]).brickCount = 1 :=
  ⟨claim_C4_brick_laziness.1 (mkWorld 2 8) 0 0 0 1 2 3 4,
   claim_C4_brick_laziness.2 (mkWorld 2 8)
     [⟨1, 2, 3, 9, 9, 9, 9⟩, ⟨4, 5, 6, 8, 8, 8, 8⟩] 0 0 0
     (List.cons_ne_nil _ _) (by decide) (by decide) (by decide)⟩

/-! ### Claim C9: occupied-brick invariant under setVoxel/clear -/

/-- A mutation through the public `BrickMapWorld` interface. -/
inductive WOp where
  | setv (x y z r g b a : Int) : WOp
  | wclear : WOp

def applyOp (w : World) : WOp → World
  | WOp.setv x y z r g b a => (w.setVoxel x y z r g b a).1
  | WOp.wclear => w.clear

def applyOps (w : World) (ops : List WOp) : World := ops.foldl applyOp w

/-- An op stores a non-zero alpha byte (`setVoxel` with `a mod 256 ≠ 0`,
e.g. any alpha in `1..255`; `clear` is unconstrained). -/
def opAlphaPos : WOp → Prop
  | WOp.setv _ _ _ _ _ _ a => a.emod 256 ≠ 0
  | WOp.wclear => True

/-- The claimed invariant: every allocated brick (every non-zero coarse
cell) stores at least one voxel record with alpha greater than 0. -/
def OccupiedBrickInv (w : World) : Prop :=
  ∀ i : Nat, w.coarseGrid i ≠ 0 →
    ∃ d, mapGet w.bricks (w.coarseGrid i) = some d ∧
      ∃ s : Nat, s < w.brickSize * w.brickSize * w.brickSize ∧ 0 < d (s * 4 + 3)

/-- Strengthened induction invariant: every stored brick is occupied,
every non-zero coarse cell refers to a stored brick, and every index
below the allocator is a stored key. -/
def StrongOcc (w : World) : Prop :=
  (∀ k d, mapGet w.bricks k = some d →
    ∃ s : Nat, s < w.brickSize * w.brickSize * w.brickSize ∧ 0 < d (s * 4 + 3)) ∧
  (∀ i : Nat, w.coarseGrid i ≠ 0 → (mapGet w.bricks (w.coarseGrid i)).isSome) ∧
  (∀ k : Nat, 1 ≤ k → k < w.nextBrickIndex → (mapGet w.bricks k).isSome)

lemma strongOcc_occupied {w : World} (h : StrongOcc w) : OccupiedBrickInv w := by
  intro i hi
  rcases Option.isSome_iff_exists.mp (h.2.1 i hi) with ⟨d, hd⟩
  exact ⟨d, hd, h.1 _ _ hd⟩

/-- The four-channel write chain leaves a positive alpha byte at the
written slot whenever the stored alpha is non-zero. -/
lemma writeChain_alpha (B : Nat) (d : Nat → Nat) (lx ly lz r g b a : Int)
    (hlx0 : 0 ≤ lx) (hlx : lx < (B : Int))
    (hly0 : 0 ≤ ly) (hly : ly < (B : Int))
    (hlz0 : 0 ≤ lz) (hlz : lz < (B : Int))
    (ha : a.emod 256 ≠ 0) :
    ∃ s : Nat, s < B * B * B ∧
      0 < (u8write (brickLen B) (u8write (brickLen B) (u8write (brickLen B)
        (u8write (brickLen B) d (brickLocalIndex B lx ly lz) r)
        (brickLocalIndex B lx ly lz + 1) g)
        (brickLocalIndex B lx ly lz + 2) b)
        (brickLocalIndex B lx ly lz + 3) a) (s * 4 + 3) := by
  have hlb := brickLocalIndex_bounds hlx0 hlx hly0 hly hlz0 hlz
  refine ⟨lx.toNat + ly.toNat * B + lz.toNat * B * B, ?_, ?_⟩
  · have hidx : brickLocalIndex B lx ly lz =
        ((lx.toNat + ly.toNat * B + lz.toNat * B * B : Nat) : Int) * 4 := by
      unfold brickLocalIndex
      push_cast [Int.toNat_of_nonneg hlx0, Int.toNat_of_nonneg hly0,
        Int.toNat_of_nonneg hlz0]
      ring
    have hBL : (brickLen B : Int) = ((B * B * B : Nat) : Int) * 4 := by
      unfold brickLen; push_cast; ring
    rw [hidx, hBL] at hlb
    have := hlb.2
    omega
  · have hidx : brickLocalIndex B lx ly lz + 3 =
        (((lx.toNat + ly.toNat * B + lz.toNat * B * B) * 4 + 3 : Nat) : Int) := by
      unfold brickLocalIndex
      push_cast [Int.toNat_of_nonneg hlx0, Int.toNat_of_nonneg hly0,
        Int.toNat_of_nonneg hlz0]
      ring
    unfold u8write
    rw [if_pos (by constructor <;> omega)]
    rw [show (brickLocalIndex B lx ly lz + 3).toNat =
      (lx.toNat + ly.toNat * B + lz.toNat * B * B) * 4 + 3 by
        rw [hidx, Int.toNat_natCast]]
    rw [Function.update_same]
    have h0 : 0 ≤ a.emod 256 := Int.emod_nonneg a (by norm_num)
    omega

lemma mapGet_mapSet (m : List (Nat × (Nat → Nat))) (k : Nat) (v : Nat → Nat) (k2 : Nat) :
    mapGet (mapSet m k v) k2 = if k2 = k then some v else mapGet m k2 := by
  by_cases h : k2 = k
  · subst h; simp [mapGet_mapSet_self]
  · simp [h, mapGet_mapSet_ne m k k2 v h]

lemma setVoxel_oob_eq (w : World) (x y z r g b a : Int)
    (h : x < 0 ∨ (w.worldSize : Int) ≤ x ∨ y < 0 ∨ (w.worldSize : Int) ≤ y ∨
      z < 0 ∨ (w.worldSize : Int) ≤ z) :
    w.setVoxel x y z r g b a = (w, false) := by
  rw [World.setVoxel, if_pos h]

lemma applyOp_strongOcc (w : World) (op : WOp) (hS : StrongOcc w)
    (hA : opAlphaPos op) : StrongOcc (applyOp w op) := by
  cases op with
  | wclear =>
    refine ⟨?_, ?_, ?_⟩
    · intro k d hd
      simp [applyOp, World.clear, mapGet] at hd
    · intro i hi
      simp [applyOp, World.clear] at hi
    · intro k h1 h2
      simp [applyOp, World.clear] at h2
      omega
  | setv x y z r g b a =>
    have ha : a.emod 256 ≠ 0 := hA
    show StrongOcc (w.setVoxel x y z r g b a).1
    by_cases hbnd : x < 0 ∨ (w.worldSize : Int) ≤ x ∨ y < 0 ∨ (w.worldSize : Int) ≤ y ∨
        z < 0 ∨ (w.worldSize : Int) ≤ z
    · rw [setVoxel_oob_eq w x y z r g b a hbnd]
      exact hS
    · have hx0 : 0 ≤ x := by omega
      have hx : x < (w.worldSize : Int) := by omega
      have hy0 : 0 ≤ y := by omega
      have hy : y < (w.worldSize : Int) := by omega
      have hz0 : 0 ≤ z := by omega
      have hz : z < (w.worldSize : Int) := by omega
      have hB : 0 < w.brickSize := by
        rcases Nat.eq_zero_or_pos w.brickSize with h | h
        · exfalso
          have : w.worldSize = 0 := by simp [World.worldSize, h]
          omega
        · exact h
      have hci := getCoarseIndex_inBounds w hx0 hx hy0 hy hz0 hz
      by_cases hcell : w.coarseGrid ((w.getCoarseIndex (x.fdiv (w.brickSize : Int))
          (y.fdiv (w.brickSize : Int)) (z.fdiv (w.brickSize : Int))).toNat) = 0
      · -- fresh brick
        have hset := setVoxel_fresh_eq w x y z r g b a hbnd (by omega) hcell
        have goal1 : ∀ k d, mapGet (mapSet (mapSet w.bricks w.nextBrickIndex
            (fun _ => 0)) w.nextBrickIndex
            (u8write (brickLen w.brickSize) (u8write (brickLen w.brickSize)
              (u8write (brickLen w.brickSize) (u8write (brickLen w.brickSize)
                (fun _ => 0)
                (brickLocalIndex w.brickSize (x.tmod (w.brickSize : Int))
                  (y.tmod (w.brickSize : Int)) (z.tmod (w.brickSize : Int))) r)
                (brickLocalIndex w.brickSize (x.tmod (w.brickSize : Int))
                  (y.tmod (w.brickSize : Int)) (z.tmod (w.brickSize : Int)) + 1) g)
                (brickLocalIndex w.brickSize (x.tmod (w.brickSize : Int))
                  (y.tmod (w.brickSize : Int)) (z.tmod (w.brickSize : Int)) + 2) b)
                (brickLocalIndex w.brickSize (x.tmod (w.brickSize : Int))
                  (y.tmod (w.brickSize : Int)) (z.tmod (w.brickSize : Int)) + 3) a))
            k = some d →
            ∃ s : Nat, s < w.brickSize * w.brickSize * w.brickSize ∧
              0 < d (s * 4 + 3) := by
          intro k d hd
          rw [mapGet_mapSet, mapGet_mapSet] at hd
          by_cases hk : k = w.nextBrickIndex
          · rw [if_pos hk, Option.some_inj] at hd
            subst hd
            exact writeChain_alpha w.brickSize (fun _ => 0)
              (x.tmod (w.brickSize : Int)) (y.tmod (w.brickSize : Int))
              (z.tmod (w.brickSize : Int)) r g b a
              (tmod_coord_nonneg hx0) (tmod_coord_lt hx0 hB)
              (tmod_coord_nonneg hy0) (tmod_coord_lt hy0 hB)
              (tmod_coord_nonneg hz0) (tmod_coord_lt hz0 hB) ha
          · rw [if_neg hk, if_neg hk] at hd
            exact hS.1 k d hd
        have goal2 : ∀ i : Nat, Function.update w.coarseGrid
            ((w.getCoarseIndex (x.fdiv (w.brickSize : Int)) (y.fdiv (w.brickSize : Int))
              (z.fdiv (w.brickSize : Int))).toNat) (w.nextBrickIndex % 2 ^ 32) i ≠ 0 →
            (mapGet (mapSet (mapSet w.bricks w.nextBrickIndex (fun _ => 0))
              w.nextBrickIndex
              (u8write (brickLen w.brickSize) (u8write (brickLen w.brickSize)
                (u8write (brickLen w.brickSize) (u8write (brickLen w.brickSize)
                  (fun _ => 0)
                  (brickLocalIndex w.brickSize (x.tmod (w.brickSize : Int))
                    (y.tmod (w.brickSize : Int)) (z.tmod (w.brickSize : Int))) r)
                  (brickLocalIndex w.brickSize (x.tmod (w.brickSize : Int))
                    (y.tmod (w.brickSize : Int)) (z.tmod (w.brickSize : Int)) + 1) g)
                  (brickLocalIndex w.brickSize (x.tmod (w.brickSize : Int))
                    (y.tmod (w.brickSize : Int)) (z.tmod (w.brickSize : Int)) + 2) b)
                  (brickLocalIndex w.brickSize (x.tmod (w.brickSize : Int))
                    (y.tmod (w.brickSize : Int)) (z.tmod (w.brickSize : Int)) + 3) a))
              (Function.update w.coarseGrid
                ((w.getCoarseIndex (x.fdiv (w.brickSize : Int)) (y.fdiv (w.brickSize : Int))
                  (z.fdiv (w.brickSize : Int))).toNat) (w.nextBrickIndex % 2 ^ 32) i)).isSome := by
          intro i hi
          rw [mapGet_mapSet, mapGet_mapSet]
          by_cases hii : i = ((w.getCoarseIndex (x.fdiv (w.brickSize : Int))
              (y.fdiv (w.brickSize : Int)) (z.fdiv (w.brickSize : Int))).toNat)
          · rw [hii, Function.update_same] at hi ⊢
            by_cases hv : w.nextBrickIndex % 2 ^ 32 = w.nextBrickIndex
            · rw [if_pos hv]
              rfl
            · rw [if_neg hv]
              rw [if_neg hv]
              have hle : w.nextBrickIndex % 2 ^ 32 ≤ w.nextBrickIndex := Nat.mod_le _ _
              exact hS.2.2 _ (by omega) (by omega)
          · rw [Function.update_noteq hii] at hi ⊢
            by_cases hv : w.coarseGrid i = w.nextBrickIndex
            · rw [if_pos hv]
              rfl
            · rw [if_neg hv, if_neg hv]
              exact hS.2.1 i hi
        have goal3 : ∀ k : Nat, 1 ≤ k → k < w.nextBrickIndex + 1 →
            (mapGet (mapSet (mapSet w.bricks w.nextBrickIndex (fun _ => 0))
              w.nextBrickIndex
              (u8write (brickLen w.brickSize) (u8write (brickLen w.brickSize)
                (u8write (brickLen w.brickSize) (u8write (brickLen w.brickSize)
                  (fun _ => 0)
                  (brickLocalIndex w.brickSize (x.tmod (w.brickSize : Int))
                    (y.tmod (w.brickSize : Int)) (z.tmod (w.brickSize : Int))) r)
                  (brickLocalIndex w.brickSize (x.tmod (w.brickSize : Int))
                    (y.tmod (w.brickSize : Int)) (z.tmod (w.brickSize : Int)) + 1) g)
                  (brickLocalIndex w.brickSize (x.tmod (w.brickSize : Int))
                    (y.tmod (w.brickSize : Int)) (z.tmod (w.brickSize : Int)) + 2) b)
                  (brickLocalIndex w.brickSize (x.tmod (w.brickSize : Int))
                    (y.tmod (w.brickSize : Int)) (z.tmod (w.brickSize : Int)) + 3) a))
              k).isSome := by
          intro k h1 h2
          rw [mapGet_mapSet, mapGet_mapSet]
          by_cases hk : k = w.nextBrickIndex
          · rw [if_pos hk]
            rfl
          · rw [if_neg hk, if_neg hk]
            exact hS.2.2 k h1 (by omega)
        rw [hset]
        exact ⟨goal1, goal2, goal3⟩
      · -- existing brick, written in place
        rcases Option.isSome_iff_exists.mp (hS.2.1 _ hcell) with ⟨d0, hd0⟩
        have hset := setVoxel_existing_eq w x y z r g b a hbnd (by omega) hcell d0 hd0
        have goal1 : ∀ k d, mapGet (mapSet w.bricks
            (w.coarseGrid ((w.getCoarseIndex (x.fdiv (w.brickSize : Int))
              (y.fdiv (w.brickSize : Int)) (z.fdiv (w.brickSize : Int))).toNat))
            (u8write (brickLen w.brickSize) (u8write (brickLen w.brickSize)
              (u8write (brickLen w.brickSize) (u8write (brickLen w.brickSize) d0
                (brickLocalIndex w.brickSize (x.tmod (w.brickSize : Int))
                  (y.tmod (w.brickSize : Int)) (z.tmod (w.brickSize : Int))) r)
                (brickLocalIndex w.brickSize (x.tmod (w.brickSize : Int))
                  (y.tmod (w.brickSize : Int)) (z.tmod (w.brickSize : Int)) + 1) g)
                (brickLocalIndex w.brickSize (x.tmod (w.brickSize : Int))
                  (y.tmod (w.brickSize : Int)) (z.tmod (w.brickSize : Int)) + 2) b)
                (brickLocalIndex w.brickSize (x.tmod (w.brickSize : Int))
                  (y.tmod (w.brickSize : Int)) (z.tmod (w.brickSize : Int)) + 3) a))
            k = some d →
            ∃ s : Nat, s < w.brickSize * w.brickSize * w.brickSize ∧
              0 < d (s * 4 + 3) := by
          intro k d hd
          rw [mapGet_mapSet] at hd
          by_cases hk : k = w.coarseGrid ((w.getCoarseIndex (x.fdiv (w.brickSize : Int))
              (y.fdiv (w.brickSize : Int)) (z.fdiv (w.brickSize : Int))).toNat)
          · rw [if_pos hk, Option.some_inj] at hd
            subst hd
            exact writeChain_alpha w.brickSize d0
              (x.tmod (w.brickSize : Int)) (y.tmod (w.brickSize : Int))
              (z.tmod (w.brickSize : Int)) r g b a
              (tmod_coord_nonneg hx0) (tmod_coord_lt hx0 hB)
              (tmod_coord_nonneg hy0) (tmod_coord_lt hy0 hB)
              (tmod_coord_nonneg hz0) (tmod_coord_lt hz0 hB) ha
          · rw [if_neg hk] at hd
            exact hS.1 k d hd
        have goal2 : ∀ i : Nat, w.coarseGrid i ≠ 0 →
            (mapGet (mapSet w.bricks
              (w.coarseGrid ((w.getCoarseIndex (x.fdiv (w.brickSize : Int))
                (y.fdiv (w.brickSize : Int)) (z.fdiv (w.brickSize : Int))).toNat))
              (u8write (brickLen w.brickSize) (u8write (brickLen w.brickSize)
                (u8write (brickLen w.brickSize) (u8write (brickLen w.brickSize) d0
                  (brickLocalIndex w.brickSize (x.tmod (w.brickSize : Int))
                    (y.tmod (w.brickSize : Int)) (z.tmod (w.brickSize : Int))) r)
                  (brickLocalIndex w.brickSize (x.tmod (w.brickSize : Int))
                    (y.tmod (w.brickSize : Int)) (z.tmod (w.brickSize : Int)) + 1) g)
                  (brickLocalIndex w.brickSize (x.tmod (w.brickSize : Int))
                    (y.tmod (w.brickSize : Int)) (z.tmod (w.brickSize : Int)) + 2) b)
                  (brickLocalIndex w.brickSize (x.tmod (w.brickSize : Int))
                    (y.tmod (w.brickSize : Int)) (z.tmod (w.brickSize : Int)) + 3) a))
              (w.coarseGrid i)).isSome := by
          intro i hi
          rw [mapGet_mapSet]
          by_cases hv : w.coarseGrid i = w.coarseGrid ((w.getCoarseIndex
              (x.fdiv (w.brickSize : Int)) (y.fdiv (w.brickSize : Int))
              (z.fdiv (w.brickSize : Int))).toNat)
          · rw [if_pos hv]
            rfl
          · rw [if_neg hv]
            exact hS.2.1 i hi
        have goal3 : ∀ k : Nat, 1 ≤ k → k < w.nextBrickIndex →
            (mapGet (mapSet w.bricks
              (w.coarseGrid ((w.getCoarseIndex (x.fdiv (w.brickSize : Int))
                (y.fdiv (w.brickSize : Int)) (z.fdiv (w.brickSize : Int))).toNat))
              (u8write (brickLen w.brickSize) (u8write (brickLen w.brickSize)
                (u8write (brickLen w.brickSize) (u8write (brickLen w.brickSize) d0
                  (brickLocalIndex w.brickSize (x.tmod (w.brickSize : Int))
                    (y.tmod (w.brickSize : Int)) (z.tmod (w.brickSize : Int))) r)
                  (brickLocalIndex w.brickSize (x.tmod (w.brickSize : Int))
                    (y.tmod (w.brickSize : Int)) (z.tmod (w.brickSize : Int)) + 1) g)
                  (brickLocalIndex w.brickSize (x.tmod (w.brickSize : Int))
                    (y.tmod (w.brickSize : Int)) (z.tmod (w.brickSize : Int)) + 2) b)
                  (brickLocalIndex w.brickSize (x.tmod (w.brickSize : Int))
                    (y.tmod (w.brickSize : Int)) (z.tmod (w.brickSize : Int)) + 3) a))
              k).isSome := by
          intro k h1 h2
          rw [mapGet_mapSet]
          by_cases hk : k = w.coarseGrid ((w.getCoarseIndex (x.fdiv (w.brickSize : Int))
              (y.fdiv (w.brickSize : Int)) (z.fdiv (w.brickSize : Int))).toNat)
          · rw [if_pos hk]
            rfl
          · rw [if_neg hk]
            exact hS.2.2 k h1 h2
        rw [hset]
        exact ⟨goal1, goal2, goal3⟩

lemma mkWorld_strongOcc (C B : Nat) : StrongOcc (mkWorld C B) := by
  refine ⟨?_, ?_, ?_⟩
  · intro k d hd
    simp [mkWorld, mapGet] at hd
  · intro i hi
    simp [mkWorld] at hi
  · intro k h1 h2
    simp [mkWorld] at h2
    omega

lemma applyOps_strongOcc (ops : List WOp) (w : World) (hS : StrongOcc w)
    (hA : ∀ op ∈ ops, opAlphaPos op) : StrongOcc (applyOps w ops) := by
  induction ops generalizing w with
  | nil => exact hS
  | cons op rest ih =>
    exact ih _ (applyOp_strongOcc w op hS (hA op (List.mem_cons_self op rest)))
      (fun o ho => hA o (List.mem_cons_of_mem op ho))

/-- Decidable check that the brick stored under key `k` (if any) has no
occupied voxel: every alpha byte is zero. -/
def brickAllEmpty (w : World) (k : Nat) : Bool :=
  match mapGet w.bricks k with
  | none => true
  | some d => (List.range (w.brickSize * w.brickSize * w.brickSize)).all
      (fun i => d (i * 4 + 3) == 0)

set_option maxRecDepth 100000 in
/-- Counterexample to claim C9 as stated: `setVoxel(0,0,0, 0,0,0, 0)` is
a mutation through `setVoxel` only, yet it allocates a brick (the coarse
cell becomes non-zero) in which every voxel record still has alpha 0. -/
theorem claim_C9_counterexample :
    ((mkWorld 1 8).setVoxel 0 0 0 0 0 0 0).1.brickCount = 1 ∧
    ((mkWorld 1 8).setVoxel 0 0 0 0 0 0 0).1.coarseGrid 0 ≠ 0 ∧
    brickAllEmpty ((mkWorld 1 8).setVoxel 0 0 0 0 0 0 0).1
      (((mkWorld 1 8).setVoxel 0 0 0 0 0 0 0).1.coarseGrid 0) = true := by
  refine ⟨by decide, by decide, by decide⟩

/-- Claim C9 (amended): under mutation only through `setVoxel` and
`clear` starting from a fresh world, *provided each `setVoxel` call
stores a non-zero alpha byte (`a mod 256 ≠ 0`, e.g. alpha in 1..255)*,
every allocated brick — every non-zero coarse cell — contains at least
one voxel record with `a > 0`; an allocated-but-empty brick never arises
by construction.  (The unamended claim is false because `setVoxel` may
be called with alpha 0, see the counterexample.) -/
theorem claim_C9_amended_occupancy (C B : Nat) (ops : List WOp)
    (hA : ∀ op ∈ ops, opAlphaPos op) :
    OccupiedBrickInv (applyOps (mkWorld C B) ops) :=
  strongOcc_occupied (applyOps_strongOcc ops (mkWorld C B) (mkWorld_strongOcc C B) hA)

/-- Witness for the amended C9 on a concrete op sequence. -/
theorem claim_C9_amended_occupancy_witness :
    OccupiedBrickInv (applyOps (mkWorld 2 8)
      [WOp.setv 1 2 3 10 20 30 255, WOp.wclear, WOp.setv 9 9 9 1 2 3 77]) :=
  claim_C9_amended_occupancy 2 8
    [WOp.setv 1 2 3 10 20 30 255, WOp.wclear, WOp.setv 9 9 9 1 2 3 77]
    (by
      intro op hop
      simp only [List.mem_cons, List.not_mem_nil, or_false] at hop
      rcases hop with rfl | rfl | rfl
      · exact (by decide : (255 : Int).emod 256 ≠ 0)
      · trivial
      · exact (by decide : (77 : Int).emod 256 ≠ 0))

/-! ### Extended float arithmetic for the GLSL traversal

The fragment shader computes in IEEE floats.  All values arising in the
verified claims are exactly representable, so the embedding uses exact
rationals extended with signed infinities (produced by the shader's
divisions by zero) and a NaN element.  GLSL `min`/`max` are translated
by their specified definitions `min(x,y) = y < x ? y : x` and
`max(x,y) = x < y ? y : x`, with comparisons against NaN false. -/

inductive XF where
  | nan : XF
  | ninf : XF
  | fin : ℚ → XF
  | inf : XF
deriving DecidableEq, Repr

/-- Strict float comparison; any comparison involving NaN is false. -/
def XF.lt : XF → XF → Bool
  | XF.nan, _ => false
  | _, XF.nan => false
  | XF.ninf, XF.ninf => false
  | XF.ninf, _ => true
  | _, XF.ninf => false
  | XF.inf, _ => false
  | _, XF.inf => true
  | XF.fin p, XF.fin q => decide (p < q)

def XF.neg : XF → XF
  | XF.nan => XF.nan
  | XF.ninf => XF.inf
  | XF.inf => XF.ninf
  | XF.fin q => XF.fin (-q)

def XF.add : XF → XF → XF
  | XF.nan, _ => XF.nan
  | _, XF.nan => XF.nan
  | XF.inf, XF.ninf => XF.nan
  | XF.ninf, XF.inf => XF.nan
  | XF.inf, _ => XF.inf
  | _, XF.inf => XF.inf
  | XF.ninf, _ => XF.ninf
  | _, XF.ninf => XF.ninf
  | XF.fin p, XF.fin q => XF.fin (p + q)

def XF.sub (x y : XF) : XF := x.add y.neg

def XF.mul : XF → XF → XF
  | XF.nan, _ => XF.nan
  | _, XF.nan => XF.nan
  | XF.inf, XF.inf => XF.inf
  | XF.inf, XF.ninf => XF.ninf
  | XF.ninf, XF.inf => XF.ninf
  | XF.ninf, XF.ninf => XF.inf
  | XF.inf, XF.fin q => if 0 < q then XF.inf else if q < 0 then XF.ninf else XF.nan
  | XF.fin q, XF.inf => if 0 < q then XF.inf else if q < 0 then XF.ninf else XF.nan
  | XF.ninf, XF.fin q => if 0 < q then XF.ninf else if q < 0 then XF.inf else XF.nan
  | XF.fin q, XF.ninf => if 0 < q then XF.ninf else if q < 0 then XF.inf else XF.nan
  | XF.fin p, XF.fin q => XF.fin (p * q)

def XF.div : XF → XF → XF
  | XF.nan, _ => XF.nan
  | _, XF.nan => XF.nan
  | XF.inf, XF.inf => XF.nan
  | XF.inf, XF.ninf => XF.nan
  | XF.ninf, XF.inf => XF.nan
  | XF.ninf, XF.ninf => XF.nan
  | XF.inf, XF.fin q => if 0 ≤ q then XF.inf else XF.ninf
  | XF.ninf, XF.fin q => if 0 ≤ q then XF.ninf else XF.inf
  | XF.fin _, XF.inf => XF.fin 0
  | XF.fin _, XF.ninf => XF.fin 0
  | XF.fin p, XF.fin q =>
    if q = 0 then
      if 0 < p then XF.inf else if p < 0 then XF.ninf else XF.nan
    else XF.fin (p / q)

def XF.abs : XF → XF
  | XF.nan => XF.nan
  | XF.ninf => XF.inf
  | XF.inf => XF.inf
  | XF.fin q => XF.fin |q|

/-- GLSL `min(x, y) = y < x ? y : x`. -/
def XF.fmin (x y : XF) : XF := if XF.lt y x then y else x

/-- GLSL `max(x, y) = x < y ? y : x`. -/
def XF.fmax (x y : XF) : XF := if XF.lt x y then y else x

/-- GLSL `sign`, as a float. -/
def XF.sgn : XF → XF
  | XF.nan => XF.fin 0
  | XF.inf => XF.fin 1
  | XF.ninf => XF.fin (-1)
  | XF.fin q => if 0 < q then XF.fin 1 else if q < 0 then XF.fin (-1) else XF.fin 0

/-- GLSL `ivec` cast of `sign` (truncating float-to-int conversion). -/
def XF.sgnI : XF → Int
  | XF.nan => 0
  | XF.inf => 1
  | XF.ninf => -1
  | XF.fin q => if 0 < q then 1 else if q < 0 then -1 else 0

/-- GLSL `ivec3(floor(v))` on a finite value; junk (0) on non-finite
inputs, which the verified claims never reach. -/
def XF.floorI : XF → Int
  | XF.fin q => Rat.floor q
  | _ => 0

def XF.ofInt (n : Int) : XF := XF.fin (n : ℚ)

/-- GLSL `clamp` on ints: `min(max(x, lo), hi)`. -/
def clampI (v lo hi : Int) : Int := min (max v lo) hi

/-- A `vec3` of floats. -/
structure V3 where
  x : XF
  y : XF
  z : XF
deriving DecidableEq, Repr

/-- An `ivec3`. -/
structure I3 where
  x : Int
  y : Int
  z : Int
deriving DecidableEq, Repr

/-- A `vec4` texel/color; in this embedding the brick-atlas texels carry
the raw byte values of the voxel record (the claims state colors in
record units, and occupancy `a > 0` is unchanged by the GPU's affine
normalization of `RGBA8` texels to `[0,1]`). -/
structure Vec4 where
  r : XF
  g : XF
  b : XF
  a : XF
deriving DecidableEq, Repr

/-- Shader environment: the uniforms and the two textures the traversal
reads (`u_coarseGridSize`, `u_atlasSize`, `u_maxSteps`, `u_coarseGrid`,
`u_brickAtlas`), with cube sizes as uploaded by the engine. -/
structure ShaderEnv where
  coarseGridSize : Nat
  atlasSize : Nat
  maxSteps : Nat
  coarseTex : Int → Int → Int → Nat
  atlasTex : Int → Int → Int → Vec4

/-- Shader `intersectAABB`: slab-method ray/box intersection, returning
`(tNear, tFar)`. -/
def intersectAABB (rayOrigin rayDir boxMin boxMax : V3) : XF × XF :=
  let tMinX := (boxMin.x.sub rayOrigin.x).div rayDir.x
  let tMinY := (boxMin.y.sub rayOrigin.y).div rayDir.y
  let tMinZ := (boxMin.z.sub rayOrigin.z).div rayDir.z
  let tMaxX := (boxMax.x.sub rayOrigin.x).div rayDir.x
  let tMaxY := (boxMax.y.sub rayOrigin.y).div rayDir.y
  let tMaxZ := (boxMax.z.sub rayOrigin.z).div rayDir.z
  let t1x := XF.fmin tMinX tMaxX
  let t1y := XF.fmin tMinY tMaxY
  let t1z := XF.fmin tMinZ tMaxZ
  let t2x := XF.fmax tMinX tMaxX
  let t2y := XF.fmax tMinY tMaxY
  let t2z := XF.fmax tMinZ tMaxZ
  (XF.fmax (XF.fmax t1x t1y) t1z, XF.fmin (XF.fmin t2x t2y) t2z)

/-- Shader `getBrickIndex`: coarse-grid texel fetch with bounds guard. -/
def getBrickIndex (env : ShaderEnv) (coarsePos : I3) : Nat :=
  if coarsePos.x < 0 ∨ coarsePos.y < 0 ∨ coarsePos.z < 0 ∨
      (env.coarseGridSize : Int) ≤ coarsePos.x ∨
      (env.coarseGridSize : Int) ≤ coarsePos.y ∨
      (env.coarseGridSize : Int) ≤ coarsePos.z then 0
  else env.coarseTex coarsePos.x coarsePos.y coarsePos.z

/-- Shader `brickIndexToAtlasPos` (GLSL int ops truncate). -/
def brickIndexToAtlasPos (env : ShaderEnv) (brickIndex : Nat) : I3 :=
  let idx : Int := (brickIndex : Int) - 1
  let atlasWidth : Int := (env.atlasSize : Int)
  let atlasHeight : Int := (env.atlasSize : Int)
  ⟨idx.tmod atlasWidth, (idx.tdiv atlasWidth).tmod atlasHeight,
    idx.tdiv (atlasWidth * atlasHeight)⟩

/-- Shader `getVoxelFromBrick`. -/
def getVoxelFromBrick (env : ShaderEnv) (brickIndex : Nat) (localPos : I3) : Vec4 :=
  if brickIndex = 0 then ⟨XF.fin 0, XF.fin 0, XF.fin 0, XF.fin 0⟩
  else
    let ap := brickIndexToAtlasPos env brickIndex
    env.atlasTex (ap.x * 8 + localPos.x) (ap.y * 8 + localPos.y) (ap.z * 8 + localPos.z)

/-- Shader `HitResult`. -/
structure HitResult where
  hit : Bool
  pos : V3
  normal : V3
  color : Vec4
  distance : XF
  steps : Nat
deriving DecidableEq, Repr

/-- Coarse-level per-axis cross distance `abs(vec3(BRICK_SIZE) / direction)`. -/
def coarseDeltaDist (direction : V3) : V3 :=
  ⟨((XF.fin 8).div direction.x).abs, ((XF.fin 8).div direction.y).abs,
    ((XF.fin 8).div direction.z).abs⟩

/-- Brick-level per-axis cross distance `abs(vec3(1.0) / rayDir)`. -/
def brickDeltaDist (rayDir : V3) : V3 :=
  ⟨((XF.fin 1).div rayDir.x).abs, ((XF.fin 1).div rayDir.y).abs,
    ((XF.fin 1).div rayDir.z).abs⟩

/-- Initial side distances
`(sign(d) * (vec3(pos) - start) + sign(d) * 0.5 + 0.5) * deltaDist`,
used identically by both DDA levels. -/
def ddaSideDist (d : V3) (pos : I3) (start : V3) (deltaDist : V3) : V3 :=
  ⟨(((d.x.sgn.mul ((XF.ofInt pos.x).sub start.x)).add (d.x.sgn.mul (XF.fin (1 / 2)))).add
      (XF.fin (1 / 2))).mul deltaDist.x,
    (((d.y.sgn.mul ((XF.ofInt pos.y).sub start.y)).add (d.y.sgn.mul (XF.fin (1 / 2)))).add
      (XF.fin (1 / 2))).mul deltaDist.y,
    (((d.z.sgn.mul ((XF.ofInt pos.z).sub start.z)).add (d.z.sgn.mul (XF.fin (1 / 2)))).add
      (XF.fin (1 / 2))).mul deltaDist.z⟩

/-- One DDA step: advance along the axis with the smallest accumulated
side distance (ties broken x, then y, then z, exactly as the nested
comparisons in the source); returns the new side distances, the new cell
position and the axis crossed (0/1/2). -/
def ddaStep (sideDist deltaDist : V3) (pos step : I3) : V3 × I3 × Nat :=
  if XF.lt sideDist.x sideDist.y then
    if XF.lt sideDist.x sideDist.z then
      (⟨sideDist.x.add deltaDist.x, sideDist.y, sideDist.z⟩,
        ⟨pos.x + step.x, pos.y, pos.z⟩, 0)
    else
      (⟨sideDist.x, sideDist.y, sideDist.z.add deltaDist.z⟩,
        ⟨pos.x, pos.y, pos.z + step.z⟩, 2)
  else
    if XF.lt sideDist.y sideDist.z then
      (⟨sideDist.x, sideDist.y.add deltaDist.y, sideDist.z⟩,
        ⟨pos.x, pos.y + step.y, pos.z⟩, 1)
    else
      (⟨sideDist.x, sideDist.y, sideDist.z.add deltaDist.z⟩,
        ⟨pos.x, pos.y, pos.z + step.z⟩, 2)

/-- The `for` loop of `traceBrick` (at most `BRICK_SIZE * 3` rounds). -/
def brickLoop (env : ShaderEnv) (brickIndex : Nat) (rayOrigin rayDir brickMin : V3)
    (step : I3) (deltaDist : V3) :
    Nat → I3 → V3 → Nat → HitResult → Bool × HitResult
  | 0, _, _, _, result => (false, result)
  | fuel + 1, mapPos, sideDist, side, result =>
    let voxel := getVoxelFromBrick env brickIndex mapPos
    if XF.lt (XF.fin 0) voxel.a then
      (true,
        { result with
          hit := true
          color := voxel
          pos := ⟨brickMin.x.add (XF.ofInt mapPos.x), brickMin.y.add (XF.ofInt mapPos.y),
            brickMin.z.add (XF.ofInt mapPos.z)⟩
          normal :=
            if side = 0 then ⟨XF.ofInt (-step.x), XF.fin 0, XF.fin 0⟩
            else if side = 1 then ⟨XF.fin 0, XF.ofInt (-step.y), XF.fin 0⟩
            else ⟨XF.fin 0, XF.fin 0, XF.ofInt (-step.z)⟩
          distance :=
            if side = 0 then
              (((brickMin.x.add (XF.ofInt mapPos.x)).sub rayOrigin.x).add
                (((XF.fin 1).sub (XF.ofInt step.x)).div (XF.fin 2))).div rayDir.x
            else if side = 1 then
              (((brickMin.y.add (XF.ofInt mapPos.y)).sub rayOrigin.y).add
                (((XF.fin 1).sub (XF.ofInt step.y)).div (XF.fin 2))).div rayDir.y
            else
              (((brickMin.z.add (XF.ofInt mapPos.z)).sub rayOrigin.z).add
                (((XF.fin 1).sub (XF.ofInt step.z)).div (XF.fin 2))).div rayDir.z })
    else
      let sp := ddaStep sideDist deltaDist mapPos step
      if sp.2.1.x < 0 ∨ 8 ≤ sp.2.1.x ∨ sp.2.1.y < 0 ∨ 8 ≤ sp.2.1.y ∨
          sp.2.1.z < 0 ∨ 8 ≤ sp.2.1.z then
        (false, result)
      else
        brickLoop env brickIndex rayOrigin rayDir brickMin step deltaDist fuel
          sp.2.1 sp.1 sp.2.2 result

/-- Shader `traceBrick`: DDA through a single brick. -/
def traceBrick (env : ShaderEnv) (brickIndex : Nat) (rayOrigin rayDir : V3)
    (coarsePos : I3) (result : HitResult) : Bool × HitResult :=
  let brickMin : V3 := ⟨XF.ofInt (coarsePos.x * 8), XF.ofInt (coarsePos.y * 8),
    XF.ofInt (coarsePos.z * 8)⟩
  let brickMax : V3 := ⟨brickMin.x.add (XF.fin 8), brickMin.y.add (XF.fin 8),
    brickMin.z.add (XF.fin 8)⟩
  let tBox := intersectAABB rayOrigin rayDir brickMin brickMax
  if XF.lt tBox.2 tBox.1 || XF.lt tBox.2 (XF.fin 0) then (false, result)
  else
    let tStart := (XF.fmax (XF.fin 0) tBox.1).add (XF.fin (1 / 1000))
    let startPos : V3 := ⟨rayOrigin.x.add (rayDir.x.mul tStart),
      rayOrigin.y.add (rayDir.y.mul tStart), rayOrigin.z.add (rayDir.z.mul tStart)⟩
    let localStart : V3 := ⟨startPos.x.sub brickMin.x, startPos.y.sub brickMin.y,
      startPos.z.sub brickMin.z⟩
    let mp : I3 := ⟨localStart.x.floorI, localStart.y.floorI, localStart.z.floorI⟩
    let mapPos : I3 := ⟨clampI mp.x 0 7, clampI mp.y 0 7, clampI mp.z 0 7⟩
    let step : I3 := ⟨rayDir.x.sgnI, rayDir.y.sgnI, rayDir.z.sgnI⟩
    let deltaDist := brickDeltaDist rayDir
    let sideDist := ddaSideDist rayDir mapPos localStart deltaDist
    brickLoop env brickIndex rayOrigin rayDir brickMin step deltaDist 24
      mapPos sideDist 0 result

/-- The `for` loop of `traceRay` (hard cap 512 rounds, broken early when
`u_maxSteps` is exhausted); `i` is the loop counter. -/
def coarseLoop (env : ShaderEnv) (origin direction : V3) (step : I3) (deltaDist : V3) :
    Nat → Nat → I3 → V3 → HitResult → HitResult
  | 0, _, _, _, result => result
  | fuel + 1, i, coarsePos, sideDist, result =>
    if env.maxSteps ≤ i then result
    else
      let result1 := { result with steps := i + 1 }
      let brickIndex := getBrickIndex env coarsePos
      let br := if 0 < brickIndex then
          traceBrick env brickIndex origin direction coarsePos result1
        else (false, result1)
      if br.1 then br.2
      else
        let sp := ddaStep sideDist deltaDist coarsePos step
        if sp.2.1.x < 0 ∨ (env.coarseGridSize : Int) ≤ sp.2.1.x ∨
            sp.2.1.y < 0 ∨ (env.coarseGridSize : Int) ≤ sp.2.1.y ∨
            sp.2.1.z < 0 ∨ (env.coarseGridSize : Int) ≤ sp.2.1.z then
          br.2
        else
          coarseLoop env origin direction step deltaDist fuel (i + 1) sp.2.1 sp.1 br.2

/-- Shader `traceRay`: the two-level DDA primary traversal. -/
def traceRay (env : ShaderEnv) (origin direction : V3) : HitResult :=
  let result : HitResult :=
    { hit := false, pos := ⟨XF.fin 0, XF.fin 0, XF.fin 0⟩,
      normal := ⟨XF.fin 0, XF.fin 0, XF.fin 0⟩,
      color := ⟨XF.fin 0, XF.fin 0, XF.fin 0, XF.fin 0⟩,
      distance := XF.fin 0, steps := 0 }
  let ws : XF := XF.ofInt ((env.coarseGridSize : Int) * 8)
  let tBox := intersectAABB origin direction ⟨XF.fin 0, XF.fin 0, XF.fin 0⟩ ⟨ws, ws, ws⟩
  if XF.lt tBox.2 tBox.1 || XF.lt tBox.2 (XF.fin 0) then result
  else
    let tStart := (XF.fmax (XF.fin 0) tBox.1).add (XF.fin (1 / 1000))
    let startPos : V3 := ⟨origin.x.add (direction.x.mul tStart),
      origin.y.add (direction.y.mul tStart), origin.z.add (direction.z.mul tStart)⟩
    let coarseStart : V3 := ⟨startPos.x.div (XF.fin 8), startPos.y.div (XF.fin 8),
      startPos.z.div (XF.fin 8)⟩
    let cp : I3 := ⟨coarseStart.x.floorI, coarseStart.y.floorI, coarseStart.z.floorI⟩
    let coarsePos : I3 := ⟨clampI cp.x 0 ((env.coarseGridSize : Int) - 1),
      clampI cp.y 0 ((env.coarseGridSize : Int) - 1),
      clampI cp.z 0 ((env.coarseGridSize : Int) - 1)⟩
    let step : I3 := ⟨direction.x.sgnI, direction.y.sgnI, direction.z.sgnI⟩
    let deltaDist := coarseDeltaDist direction
    let sideDist := ddaSideDist direction coarsePos coarseStart deltaDist
    coarseLoop env origin direction step deltaDist 512 0 coarsePos sideDist result

/-- The shader environment produced by the engine from a world: the
coarse grid uploaded x-fastest as `R32UI`, the built atlas uploaded as
`RGBA8` (texels carry the record bytes). -/
def envOfWorld (w : World) (maxSteps : Nat) : ShaderEnv where
  coarseGridSize := w.coarseSize
  atlasSize := w.atlasSize
  maxSteps := maxSteps
  coarseTex := fun tx ty tz =>
    w.coarseGrid ((tx + ty * (w.coarseSize : Int) +
      tz * (w.coarseSize : Int) * (w.coarseSize : Int)).toNat)
  atlasTex := fun tx ty tz =>
    let s : Int := (w.atlasSize : Int) * (w.brickSize : Int)
    let base := (tx + ty * s + tz * s * s) * 4
    ⟨XF.fin (w.buildAtlas base.toNat : ℚ),
      XF.fin (w.buildAtlas (base.toNat + 1) : ℚ),
      XF.fin (w.buildAtlas (base.toNat + 2) : ℚ),
      XF.fin (w.buildAtlas (base.toNat + 3) : ℚ)⟩


/-! ### Claim C3: atlas fidelity

The nested `buildAtlas` loops are first fused into a single flat list of
guarded byte writes (`applyWrites`), then characterized by frame/content
lemmas, with injectivity of the brick-to-atlas placement for indices
that fit in the atlas. -/

/-- Replay a list of `(byte offset, value)` writes through the guarded
`Uint8Array` write. -/
def applyWrites (len : Nat) (ws : List (Int × Nat)) (buf : Nat → Nat) : Nat → Nat :=
  ws.foldl (fun b p => u8write len b p.1 (p.2 : Int)) buf

/-- The atlas byte offset at which `buildAtlas` stores channel 0 of the
voxel `(lx,ly,lz)` of the brick with index `k`. -/
def atlasDst (A B : Nat) (k : Nat) (lx ly lz : Nat) : Int :=
  ((((k : Int) - 1).tmod (A : Int) * (B : Int) + (lx : Int)) +
    ((((k : Int) - 1).fdiv (A : Int)).tmod (A : Int) * (B : Int) + (ly : Int)) *
      ((A * B : Nat) : Int) +
    (((k : Int) - 1).fdiv ((A : Int) * (A : Int)) * (B : Int) + (lz : Int)) *
      ((A * B : Nat) : Int) * ((A * B : Nat) : Int)) * 4

/-- The flat list of writes `buildAtlas` performs for one stored brick. -/
def entryWrites (A B : Nat) (k : Nat) (data : Nat → Nat) : List (Int × Nat) :=
  (List.range B).flatMap (fun lz => (List.range B).flatMap (fun ly =>
    (List.range B).flatMap (fun lx =>
      [(atlasDst A B k lx ly lz, data ((lx + ly * B + lz * B * B) * 4)),
       (atlasDst A B k lx ly lz + 1, data ((lx + ly * B + lz * B * B) * 4 + 1)),
       (atlasDst A B k lx ly lz + 2, data ((lx + ly * B + lz * B * B) * 4 + 2)),
       (atlasDst A B k lx ly lz + 3, data ((lx + ly * B + lz * B * B) * 4 + 3))])))

lemma applyWrites_append (len : Nat) (u v : List (Int × Nat)) (buf : Nat → Nat) :
    applyWrites len (u ++ v) buf = applyWrites len v (applyWrites len u buf) := by
  unfold applyWrites
  exact List.foldl_append _ _ u v

lemma foldl_as_applyWrites {α : Type} (len : Nat) (g : α → List (Int × Nat))
    (f : (Nat → Nat) → α → (Nat → Nat))
    (hf : ∀ b x, f b x = applyWrites len (g x) b) (l : List α) (buf : Nat → Nat) :
    l.foldl f buf = applyWrites len (l.flatMap g) buf := by
  induction l generalizing buf with
  | nil => simp [applyWrites]
  | cons x xs ih =>
    simp only [List.foldl_cons, List.flatMap_cons]
    rw [hf, applyWrites_append, ← ih]

lemma inner_fold_writes (A B len k : Nat) (data : Nat → Nat) (lz ly : Nat) (b : Nat → Nat) :
    (List.range B).foldl (fun buf lx => u8write len (u8write len (u8write len (u8write len buf
        (atlasDst A B k lx ly lz) (data ((lx + ly * B + lz * B * B) * 4)))
        (atlasDst A B k lx ly lz + 1) (data ((lx + ly * B + lz * B * B) * 4 + 1)))
        (atlasDst A B k lx ly lz + 2) (data ((lx + ly * B + lz * B * B) * 4 + 2)))
        (atlasDst A B k lx ly lz + 3) (data ((lx + ly * B + lz * B * B) * 4 + 3))) b
    = applyWrites len ((List.range B).flatMap (fun lx =>
        [(atlasDst A B k lx ly lz, data ((lx + ly * B + lz * B * B) * 4)),
         (atlasDst A B k lx ly lz + 1, data ((lx + ly * B + lz * B * B) * 4 + 1)),
         (atlasDst A B k lx ly lz + 2, data ((lx + ly * B + lz * B * B) * 4 + 2)),
         (atlasDst A B k lx ly lz + 3, data ((lx + ly * B + lz * B * B) * 4 + 3))])) b :=
  foldl_as_applyWrites len
    (fun lx =>
      [(atlasDst A B k lx ly lz, data ((lx + ly * B + lz * B * B) * 4)),
       (atlasDst A B k lx ly lz + 1, data ((lx + ly * B + lz * B * B) * 4 + 1)),
       (atlasDst A B k lx ly lz + 2, data ((lx + ly * B + lz * B * B) * 4 + 2)),
       (atlasDst A B k lx ly lz + 3, data ((lx + ly * B + lz * B * B) * 4 + 3))])
    (fun buf lx => u8write len (u8write len (u8write len (u8write len buf
      (atlasDst A B k lx ly lz) (data ((lx + ly * B + lz * B * B) * 4)))
      (atlasDst A B k lx ly lz + 1) (data ((lx + ly * B + lz * B * B) * 4 + 1)))
      (atlasDst A B k lx ly lz + 2) (data ((lx + ly * B + lz * B * B) * 4 + 2)))
      (atlasDst A B k lx ly lz + 3) (data ((lx + ly * B + lz * B * B) * 4 + 3)))
    (fun _ _ => rfl) _ b

lemma middle_fold_writes (A B len k : Nat) (data : Nat → Nat) (lz : Nat) (b : Nat → Nat) :
    (List.range B).foldl (fun buf ly =>
      (List.range B).foldl (fun buf lx => u8write len (u8write len (u8write len (u8write len buf
        (atlasDst A B k lx ly lz) (data ((lx + ly * B + lz * B * B) * 4)))
        (atlasDst A B k lx ly lz + 1) (data ((lx + ly * B + lz * B * B) * 4 + 1)))
        (atlasDst A B k lx ly lz + 2) (data ((lx + ly * B + lz * B * B) * 4 + 2)))
        (atlasDst A B k lx ly lz + 3) (data ((lx + ly * B + lz * B * B) * 4 + 3))) buf) b
    = applyWrites len ((List.range B).flatMap (fun ly => (List.range B).flatMap (fun lx =>
        [(atlasDst A B k lx ly lz, data ((lx + ly * B + lz * B * B) * 4)),
         (atlasDst A B k lx ly lz + 1, data ((lx + ly * B + lz * B * B) * 4 + 1)),
         (atlasDst A B k lx ly lz + 2, data ((lx + ly * B + lz * B * B) * 4 + 2)),
         (atlasDst A B k lx ly lz + 3, data ((lx + ly * B + lz * B * B) * 4 + 3))]))) b :=
  foldl_as_applyWrites len _ _ (fun b2 ly => inner_fold_writes A B len k data lz ly b2) _ b

lemma entry_fold_writes (A B len k : Nat) (data : Nat → Nat) (b : Nat → Nat) :
    (List.range B).foldl (fun buf lz => (List.range B).foldl (fun buf ly =>
      (List.range B).foldl (fun buf lx => u8write len (u8write len (u8write len (u8write len buf
        (atlasDst A B k lx ly lz) (data ((lx + ly * B + lz * B * B) * 4)))
        (atlasDst A B k lx ly lz + 1) (data ((lx + ly * B + lz * B * B) * 4 + 1)))
        (atlasDst A B k lx ly lz + 2) (data ((lx + ly * B + lz * B * B) * 4 + 2)))
        (atlasDst A B k lx ly lz + 3) (data ((lx + ly * B + lz * B * B) * 4 + 3))) buf) buf) b
    = applyWrites len (entryWrites A B k data) b :=
  foldl_as_applyWrites len _ _ (fun b2 lz => middle_fold_writes A B len k data lz b2) _ b

lemma buildAtlas_eq_fold (w : World) :
    w.buildAtlas = w.bricks.foldl (fun buf kv => (List.range w.brickSize).foldl (fun buf lz =>
      (List.range w.brickSize).foldl (fun buf ly =>
        (List.range w.brickSize).foldl (fun buf lx =>
          u8write (w.atlasSize * w.brickSize * (w.atlasSize * w.brickSize) *
              (w.atlasSize * w.brickSize) * 4)
            (u8write (w.atlasSize * w.brickSize * (w.atlasSize * w.brickSize) *
              (w.atlasSize * w.brickSize) * 4)
            (u8write (w.atlasSize * w.brickSize * (w.atlasSize * w.brickSize) *
              (w.atlasSize * w.brickSize) * 4)
            (u8write (w.atlasSize * w.brickSize * (w.atlasSize * w.brickSize) *
              (w.atlasSize * w.brickSize) * 4) buf
            (atlasDst w.atlasSize w.brickSize kv.1 lx ly lz)
              (kv.2 ((lx + ly * w.brickSize + lz * w.brickSize * w.brickSize) * 4)))
            (atlasDst w.atlasSize w.brickSize kv.1 lx ly lz + 1)
              (kv.2 ((lx + ly * w.brickSize + lz * w.brickSize * w.brickSize) * 4 + 1)))
            (atlasDst w.atlasSize w.brickSize kv.1 lx ly lz + 2)
              (kv.2 ((lx + ly * w.brickSize + lz * w.brickSize * w.brickSize) * 4 + 2)))
            (atlasDst w.atlasSize w.brickSize kv.1 lx ly lz + 3)
              (kv.2 ((lx + ly * w.brickSize + lz * w.brickSize * w.brickSize) * 4 + 3)))
          buf) buf) buf) (fun _ => 0) := rfl

lemma fold_entry_writes_all (A B len : Nat) (m : List (Nat × (Nat → Nat)))
    (b : Nat → Nat) :
    m.foldl (fun buf kv => (List.range B).foldl (fun buf lz =>
      (List.range B).foldl (fun buf ly =>
        (List.range B).foldl (fun buf lx =>
          u8write len (u8write len (u8write len (u8write len buf
            (atlasDst A B kv.1 lx ly lz)
              (kv.2 ((lx + ly * B + lz * B * B) * 4)))
            (atlasDst A B kv.1 lx ly lz + 1)
              (kv.2 ((lx + ly * B + lz * B * B) * 4 + 1)))
            (atlasDst A B kv.1 lx ly lz + 2)
              (kv.2 ((lx + ly * B + lz * B * B) * 4 + 2)))
            (atlasDst A B kv.1 lx ly lz + 3)
              (kv.2 ((lx + ly * B + lz * B * B) * 4 + 3)))
          buf) buf) buf) b
    = applyWrites len (m.flatMap (fun kv => entryWrites A B kv.1 kv.2)) b := by
  induction m generalizing b with
  | nil => rfl
  | cons kv rest ih =>
    simp only [List.foldl_cons, List.flatMap_cons]
    rw [applyWrites_append, ← ih]
    congr 1
    exact entry_fold_writes A B len kv.1 kv.2 b

lemma buildAtlas_as_writes (w : World) :
    w.buildAtlas = applyWrites
      (w.atlasSize * w.brickSize * (w.atlasSize * w.brickSize) *
        (w.atlasSize * w.brickSize) * 4)
      (w.bricks.flatMap (fun kv => entryWrites w.atlasSize w.brickSize kv.1 kv.2))
      (fun _ => 0) :=
  (buildAtlas_eq_fold w).trans
    (fold_entry_writes_all w.atlasSize w.brickSize
      (w.atlasSize * w.brickSize * (w.atlasSize * w.brickSize) *
        (w.atlasSize * w.brickSize) * 4) w.bricks (fun _ => 0))

lemma applyWrites_cons (len : Nat) (p : Int × Nat) (rest : List (Int × Nat))
    (buf : Nat → Nat) :
    applyWrites len (p :: rest) buf =
      applyWrites len rest (u8write len buf p.1 (p.2 : Int)) := rfl

lemma u8write_notat (len : Nat) (buf : Nat → Nat) (i v : Int) (n : Nat)
    (h : ¬(0 ≤ i ∧ i < (len : Int) ∧ i.toNat = n)) :
    u8write len buf i v n = buf n := by
  unfold u8write
  by_cases hg : 0 ≤ i ∧ i < (len : Int)
  · have hne : i.toNat ≠ n := fun he => h ⟨hg.1, hg.2, he⟩
    rw [if_pos hg, Function.update_noteq (Ne.symm hne)]
  · rw [if_neg hg]

lemma natEmod256 (v : Nat) : ((v : Int).emod 256).toNat = v % 256 := by
  show ((v : Int) % 256).toNat = v % 256
  omega

lemma applyWrites_frame (len : Nat) (ws : List (Int × Nat)) (buf : Nat → Nat) (n : Nat)
    (h : ∀ p ∈ ws, ¬(0 ≤ p.1 ∧ p.1 < (len : Int) ∧ p.1.toNat = n)) :
    applyWrites len ws buf n = buf n := by
  induction ws generalizing buf with
  | nil => rfl
  | cons p rest ih =>
    rw [applyWrites_cons, ih _ (fun q hq => h q (List.mem_cons_of_mem p hq)),
      u8write_notat _ _ _ _ _ (h p (List.mem_cons_self p rest))]

lemma applyWrites_content (len : Nat) (ws : List (Int × Nat)) :
    ∀ (buf : Nat → Nat) (n v : Nat),
      (∃ p ∈ ws, 0 ≤ p.1 ∧ p.1 < (len : Int) ∧ p.1.toNat = n) →
      (∀ p ∈ ws, (0 ≤ p.1 ∧ p.1 < (len : Int) ∧ p.1.toNat = n) → p.2 % 256 = v) →
      applyWrites len ws buf n = v := by
  induction ws with
  | nil =>
    intro buf n v hex _
    rcases hex with ⟨p, hp, _⟩
    exact absurd hp (List.not_mem_nil p)
  | cons p rest ih =>
    intro buf n v hex huni
    rw [applyWrites_cons]
    by_cases hrest : ∃ q ∈ rest, 0 ≤ q.1 ∧ q.1 < (len : Int) ∧ q.1.toNat = n
    · exact ih _ n v hrest (fun q hq => huni q (List.mem_cons_of_mem p hq))
    · have hp : 0 ≤ p.1 ∧ p.1 < (len : Int) ∧ p.1.toNat = n := by
        rcases hex with ⟨q, hq, hqt⟩
        rcases List.mem_cons.mp hq with rfl | hq2
        · exact hqt
        · exact absurd ⟨q, hq2, hqt⟩ hrest
      rw [applyWrites_frame _ _ _ _ (fun q hq hqt => hrest ⟨q, hq, hqt⟩)]
      unfold u8write
      rw [if_pos ⟨hp.1, hp.2.1⟩]
      rw [show p.1.toNat = n from hp.2.2]
      rw [Function.update_same]
      rw [natEmod256]
      exact huni p (List.mem_cons_self p rest) hp

lemma tmod_natCast (m n : Nat) : (m : Int).tmod (n : Int) = ((m % n : Nat) : Int) := by
  rw [Int.tmod_eq_emod (by positivity) (by positivity)]
  exact (Int.natCast_mod m n).symm

lemma fdiv_natCast (m n : Nat) : (m : Int).fdiv (n : Int) = ((m / n : Nat) : Int) := by
  rw [Int.fdiv_eq_ediv _ (by positivity)]
  exact (Int.natCast_div m n).symm

/-- The atlas byte offset in pure `Nat` arithmetic. -/
def natAtlasDst (A B k lx ly lz : Nat) : Nat :=
  (((k - 1) % A * B + lx) + ((k - 1) / A % A * B + ly) * (A * B) +
    ((k - 1) / (A * A) * B + lz) * (A * B) * (A * B)) * 4

lemma atlasDst_eq_nat (A B k lx ly lz : Nat) (hk : 1 ≤ k) :
    atlasDst A B k lx ly lz = (natAtlasDst A B k lx ly lz : Int) := by
  unfold atlasDst natAtlasDst
  have h1 : (k : Int) - 1 = ((k - 1 : Nat) : Int) := by omega
  have h2 : ((A : Int) * (A : Int)) = ((A * A : Nat) : Int) := by push_cast; ring
  rw [h1, h2, tmod_natCast, fdiv_natCast, tmod_natCast, fdiv_natCast]
  push_cast
  ring

lemma qr_inj {B a a2 r r2 : Nat} (hr : r < B) (hr2 : r2 < B)
    (h : a * B + r = a2 * B + r2) : a = a2 ∧ r = r2 := by
  have hB : 0 < B := by omega
  have hm : (a * B + r) % B = (a2 * B + r2) % B := by rw [h]
  rw [show a * B + r = r + a * B by ring, show a2 * B + r2 = r2 + a2 * B by ring,
    Nat.add_mul_mod_self_right, Nat.add_mul_mod_self_right,
    Nat.mod_eq_of_lt hr, Nat.mod_eq_of_lt hr2] at hm
  subst hm
  exact ⟨Nat.eq_of_mul_eq_mul_right hB (by omega), rfl⟩

lemma digits3_inj {S X Y Z X2 Y2 Z2 : Nat} (hX : X < S) (hX2 : X2 < S)
    (hY : Y < S) (hY2 : Y2 < S)
    (h : X + Y * S + Z * S * S = X2 + Y2 * S + Z2 * S * S) :
    X = X2 ∧ Y = Y2 ∧ Z = Z2 := by
  have e1 : X + Y * S + Z * S * S = (Y + Z * S) * S + X := by ring
  have e2 : X2 + Y2 * S + Z2 * S * S = (Y2 + Z2 * S) * S + X2 := by ring
  rw [e1, e2] at h
  obtain ⟨hM, hXe⟩ := qr_inj hX hX2 h
  have e3 : Y + Z * S = Z * S + Y := by ring
  have e4 : Y2 + Z2 * S = Z2 * S + Y2 := by ring
  rw [e3, e4] at hM
  obtain ⟨hZ, hYe⟩ := qr_inj hY hY2 hM
  exact ⟨hXe, hYe, hZ⟩

/-- Reconstruction of a brick index below `A^3` from its three atlas
digits. -/
lemma digits_reconstruct (A n : Nat) :
    n = A * A * (n / (A * A)) + A * (n / A % A) + n % A := by
  rcases Nat.eq_zero_or_pos A with hA | hA
  · subst hA; simp
  · have h1 := Nat.div_add_mod n A
    have h2 := Nat.div_add_mod (n / A) A
    rw [Nat.div_div_eq_div_mul] at h2
    calc n = A * (n / A) + n % A := h1.symm
      _ = A * (A * (n / (A * A)) + n / A % A) + n % A := by rw [h2]
      _ = A * A * (n / (A * A)) + A * (n / A % A) + n % A := by ring

lemma natAtlasDst_digit_lt {A B q l : Nat} (hq : q < A) (hl : l < B) :
    q * B + l < A * B := by
  calc q * B + l < q * B + B := by omega
    _ = (q + 1) * B := by ring
    _ ≤ A * B := Nat.mul_le_mul_right B hq

lemma digit3_bound {S X Y Z c : Nat} (hX : X < S) (hY : Y < S) (hZ : Z < S)
    (hc : c < 4) : (X + Y * S + Z * S * S) * 4 + c < S * S * S * 4 := by
  obtain ⟨T, rfl⟩ : ∃ T, S = T + 1 := ⟨S - 1, by omega⟩
  have e : (T + T * (T + 1) + T * (T + 1) * (T + 1)) * 4 + 3 + 1 =
      (T + 1) * (T + 1) * (T + 1) * 4 := by ring
  have hle : (X + Y * (T + 1) + Z * (T + 1) * (T + 1)) * 4 + c ≤
      (T + T * (T + 1) + T * (T + 1) * (T + 1)) * 4 + 3 := by
    have h1 : X ≤ T := by omega
    have h2 : Y ≤ T := by omega
    have h3 : Z ≤ T := by omega
    have h4 : c ≤ 3 := by omega
    gcongr
  omega

lemma natAtlasDst_bound {A B k lx ly lz c : Nat}
    (hk1 : 1 ≤ k) (hkA : k ≤ A * A * A)
    (hlx : lx < B) (hly : ly < B) (hlz : lz < B) (hc : c < 4) :
    natAtlasDst A B k lx ly lz + c < A * B * (A * B) * (A * B) * 4 := by
  have hA : 0 < A := by
    rcases Nat.eq_zero_or_pos A with h0 | h0
    · subst h0; omega
    · exact h0
  have hB : 0 < B := by omega
  have hX : (k - 1) % A * B + lx < A * B :=
    natAtlasDst_digit_lt (Nat.mod_lt _ hA) hlx
  have hY : (k - 1) / A % A * B + ly < A * B :=
    natAtlasDst_digit_lt (Nat.mod_lt _ hA) hly
  have hZ : (k - 1) / (A * A) * B + lz < A * B := by
    refine natAtlasDst_digit_lt ?_ hlz
    rw [Nat.div_lt_iff_lt_mul (Nat.mul_pos hA hA)]
    calc k - 1 < A * A * A := by omega
      _ = A * (A * A) := by ring
  exact digit3_bound hX hY hZ hc

lemma natAtlasDst_inj {A B k k2 lx ly lz lx2 ly2 lz2 c c2 : Nat}
    (hk1 : 1 ≤ k) (hkA : k ≤ A * A * A) (hk21 : 1 ≤ k2) (hk2A : k2 ≤ A * A * A)
    (hlx : lx < B) (hly : ly < B) (hlz : lz < B)
    (hlx2 : lx2 < B) (hly2 : ly2 < B) (hlz2 : lz2 < B)
    (hc : c < 4) (hc2 : c2 < 4)
    (h : natAtlasDst A B k lx ly lz + c = natAtlasDst A B k2 lx2 ly2 lz2 + c2) :
    k = k2 ∧ lx = lx2 ∧ ly = ly2 ∧ lz = lz2 ∧ c = c2 := by
  have hA : 0 < A := by
    rcases Nat.eq_zero_or_pos A with h0 | h0
    · subst h0; omega
    · exact h0
  have hB : 0 < B := by omega
  have hX : (k - 1) % A * B + lx < A * B :=
    natAtlasDst_digit_lt (Nat.mod_lt _ hA) hlx
  have hY : (k - 1) / A % A * B + ly < A * B :=
    natAtlasDst_digit_lt (Nat.mod_lt _ hA) hly
  have hX2 : (k2 - 1) % A * B + lx2 < A * B :=
    natAtlasDst_digit_lt (Nat.mod_lt _ hA) hlx2
  have hY2 : (k2 - 1) / A % A * B + ly2 < A * B :=
    natAtlasDst_digit_lt (Nat.mod_lt _ hA) hly2
  unfold natAtlasDst at h
  have hL : ((k - 1) % A * B + lx) + ((k - 1) / A % A * B + ly) * (A * B) +
      ((k - 1) / (A * A) * B + lz) * (A * B) * (A * B) =
      ((k2 - 1) % A * B + lx2) + ((k2 - 1) / A % A * B + ly2) * (A * B) +
      ((k2 - 1) / (A * A) * B + lz2) * (A * B) * (A * B) ∧ c = c2 := by
    constructor <;> omega
  obtain ⟨hXe, hYe, hZe⟩ := digits3_inj hX hX2 hY hY2 hL.1
  obtain ⟨hq1, hl1⟩ := qr_inj hlx hlx2 hXe
  obtain ⟨hq2, hl2⟩ := qr_inj hly hly2 hYe
  obtain ⟨hq3, hl3⟩ := qr_inj hlz hlz2 hZe
  have hrec := digits_reconstruct A (k - 1)
  have hrec2 := digits_reconstruct A (k2 - 1)
  rw [hq1, hq2, hq3] at hrec
  have hkk : k - 1 = k2 - 1 := hrec.trans hrec2.symm
  exact ⟨by omega, hl1, hl2, hl3, hL.2⟩

lemma mem_entryWrites {A B k : Nat} {data : Nat → Nat} {p : Int × Nat}
    (h : p ∈ entryWrites A B k data) :
    ∃ lx, lx < B ∧ ∃ ly, ly < B ∧ ∃ lz, lz < B ∧ ∃ c : Nat, c < 4 ∧
      p.1 = atlasDst A B k lx ly lz + (c : Int) ∧
      p.2 = data ((lx + ly * B + lz * B * B) * 4 + c) := by
  unfold entryWrites at h
  simp only [List.mem_flatMap, List.mem_range, List.mem_cons,
    List.not_mem_nil, or_false] at h
  obtain ⟨lz, hlz, ly, hly, lx, hlx, hp⟩ := h
  rcases hp with rfl | rfl | rfl | rfl
  · exact ⟨lx, hlx, ly, hly, lz, hlz, 0, by omega, by simp, by simp⟩
  · exact ⟨lx, hlx, ly, hly, lz, hlz, 1, by omega, by simp, rfl⟩
  · exact ⟨lx, hlx, ly, hly, lz, hlz, 2, by omega, by simp, rfl⟩
  · exact ⟨lx, hlx, ly, hly, lz, hlz, 3, by omega, by simp, rfl⟩

lemma entryWrites_mem {A B k : Nat} {data : Nat → Nat} {lx ly lz c : Nat}
    (hlx : lx < B) (hly : ly < B) (hlz : lz < B) (hc : c < 4) :
    (atlasDst A B k lx ly lz + (c : Int),
      data ((lx + ly * B + lz * B * B) * 4 + c)) ∈ entryWrites A B k data := by
  unfold entryWrites
  simp only [List.mem_flatMap, List.mem_range, List.mem_cons,
    List.not_mem_nil, or_false]
  refine ⟨lz, hlz, ly, hly, lx, hlx, ?_⟩
  interval_cases c
  · left; simp
  · right; left; rfl
  · right; right; left; rfl
  · right; right; right; rfl

lemma mapGet_mem {m : List (Nat × (Nat → Nat))} {k : Nat} {v : Nat → Nat}
    (h : mapGet m k = some v) : (k, v) ∈ m := by
  induction m with
  | nil => exact absurd h (by simp [mapGet])
  | cons kv rest ih =>
    obtain ⟨k2, v2⟩ := kv
    rw [mapGet] at h
    by_cases he : k2 = k
    · rw [if_pos he] at h
      subst he
      rw [Option.some.injEq] at h
      subst h
      exact List.mem_cons_self _ _
    · rw [if_neg he] at h
      exact List.mem_cons_of_mem _ (ih h)

lemma mapKeys_unique {m : List (Nat × (Nat → Nat))} {k : Nat} {v1 v2 : Nat → Nat}
    (hnd : (m.map Prod.fst).Nodup) (h1 : (k, v1) ∈ m) (h2 : (k, v2) ∈ m) :
    v1 = v2 := by
  induction m with
  | nil => exact absurd h1 (List.not_mem_nil _)
  | cons kv rest ih =>
    rw [List.map_cons, List.nodup_cons] at hnd
    rcases List.mem_cons.mp h1 with h1e | h1r
    · rcases List.mem_cons.mp h2 with h2e | h2r
      · exact (Prod.ext_iff.mp (h1e.trans h2e.symm)).2
      · exfalso
        apply hnd.1
        have hmem : k ∈ rest.map Prod.fst := List.mem_map_of_mem Prod.fst h2r
        rw [← h1e]
        exact hmem
    · rcases List.mem_cons.mp h2 with h2e | h2r
      · exfalso
        apply hnd.1
        have hmem : k ∈ rest.map Prod.fst := List.mem_map_of_mem Prod.fst h1r
        rw [← h2e]
        exact hmem
      · exact ih hnd.2 h1r h2r

lemma mem_mapSet {m : List (Nat × (Nat → Nat))} {k : Nat} {v : Nat → Nat}
    {kv : Nat × (Nat → Nat)} (h : kv ∈ mapSet m k v) :
    kv = (k, v) ∨ kv ∈ m := by
  induction m with
  | nil =>
    rw [mapSet] at h
    rcases List.mem_cons.mp h with he | hn
    · exact Or.inl he
    · exact absurd hn (List.not_mem_nil _)
  | cons kv2 rest ih =>
    obtain ⟨k2, v2⟩ := kv2
    rw [mapSet] at h
    by_cases he : k2 = k
    · rw [if_pos he] at h
      rcases List.mem_cons.mp h with h1 | h1
      · exact Or.inl h1
      · exact Or.inr (List.mem_cons_of_mem _ h1)
    · rw [if_neg he] at h
      rcases List.mem_cons.mp h with h1 | h1
      · exact Or.inr (h1 ▸ List.mem_cons_self _ _)
      · rcases ih h1 with h2 | h2
        · exact Or.inl h2
        · exact Or.inr (List.mem_cons_of_mem _ h2)

lemma mapSet_keys_of_not_mem {m : List (Nat × (Nat → Nat))} {k : Nat}
    (v : Nat → Nat) (h : k ∉ m.map Prod.fst) :
    (mapSet m k v).map Prod.fst = m.map Prod.fst ++ [k] := by
  induction m with
  | nil => rfl
  | cons kv rest ih =>
    obtain ⟨k2, v2⟩ := kv
    rw [List.map_cons, List.mem_cons] at h
    push_neg at h
    rw [mapSet, if_neg (fun he => h.1 he.symm), List.map_cons, List.map_cons,
      ih h.2, List.cons_append]

lemma mapSet_keys_of_mem {m : List (Nat × (Nat → Nat))} {k : Nat}
    (v : Nat → Nat) (h : k ∈ m.map Prod.fst) :
    (mapSet m k v).map Prod.fst = m.map Prod.fst := by
  induction m with
  | nil => exact absurd h (List.not_mem_nil _)
  | cons kv rest ih =>
    obtain ⟨k2, v2⟩ := kv
    rw [List.map_cons, List.mem_cons] at h
    by_cases he : k2 = k
    · rw [mapSet, if_pos he, List.map_cons, List.map_cons, he]
    · rw [mapSet, if_neg he, List.map_cons, List.map_cons, ih ?_]
      rcases h with h1 | h1
      · exact absurd h1.symm he
      · exact h1

lemma u8write_bytes_lt {len : Nat} {buf : Nat → Nat} (i v : Int)
    (h : ∀ n, buf n < 256) : ∀ n, u8write len buf i v n < 256 := by
  intro n
  unfold u8write
  split
  · by_cases he : i.toNat = n
    · rw [he, Function.update_same]
      show (v % 256).toNat < 256
      omega
    · rw [Function.update_noteq (fun hx => he hx.symm)]; exact h n
  · exact h n

lemma setVoxel_negidx_eq (w : World) (x y z r g b a : Int)
    (hb : ¬(x < 0 ∨ (w.worldSize : Int) ≤ x ∨ y < 0 ∨ (w.worldSize : Int) ≤ y ∨
      z < 0 ∨ (w.worldSize : Int) ≤ z))
    (hge : w.getCoarseIndex (x.fdiv (w.brickSize : Int)) (y.fdiv (w.brickSize : Int))
      (z.fdiv (w.brickSize : Int)) < 0) :
    w.setVoxel x y z r g b a = (w, false) := by
  have hgo : w.getOrCreateBrick (x.fdiv (w.brickSize : Int)) (y.fdiv (w.brickSize : Int))
      (z.fdiv (w.brickSize : Int)) = (w, none) := by
    simp only [World.getOrCreateBrick]
    rw [if_pos hge]
  simp only [World.setVoxel, if_neg hb]
  rw [hgo]

lemma setVoxel_missing_eq (w : World) (x y z r g b a : Int)
    (hb : ¬(x < 0 ∨ (w.worldSize : Int) ≤ x ∨ y < 0 ∨ (w.worldSize : Int) ≤ y ∨
      z < 0 ∨ (w.worldSize : Int) ≤ z))
    (hge : ¬w.getCoarseIndex (x.fdiv (w.brickSize : Int)) (y.fdiv (w.brickSize : Int))
      (z.fdiv (w.brickSize : Int)) < 0)
    (hcell : w.coarseGrid ((w.getCoarseIndex (x.fdiv (w.brickSize : Int))
      (y.fdiv (w.brickSize : Int)) (z.fdiv (w.brickSize : Int))).toNat) ≠ 0)
    (hmg : mapGet w.bricks (w.coarseGrid ((w.getCoarseIndex (x.fdiv (w.brickSize : Int))
      (y.fdiv (w.brickSize : Int)) (z.fdiv (w.brickSize : Int))).toNat)) = none) :
    w.setVoxel x y z r g b a = (w, false) := by
  have hgo : w.getOrCreateBrick (x.fdiv (w.brickSize : Int)) (y.fdiv (w.brickSize : Int))
      (z.fdiv (w.brickSize : Int)) = (w, none) := by
    simp only [World.getOrCreateBrick]
    rw [if_neg hge, if_neg hcell, hmg]
    rfl
  simp only [World.setVoxel, if_neg hb]
  rw [hgo]

/-- Invariant needed for atlas fidelity: brick keys are unique, every
stored key is a past value of `nextBrickIndex`, and brick bytes are
byte-sized. -/
def AtlasWF (w : World) : Prop :=
  1 ≤ w.nextBrickIndex ∧
  (w.bricks.map Prod.fst).Nodup ∧
  ∀ kv ∈ w.bricks, (1 ≤ kv.1 ∧ kv.1 < w.nextBrickIndex) ∧ ∀ n, kv.2 n < 256

lemma mkWorld_atlasWF (C B : Nat) : AtlasWF (mkWorld C B) := by
  refine ⟨by norm_num [mkWorld], by simp [mkWorld], ?_⟩
  intro kv hkv
  exact absurd hkv (List.not_mem_nil _)

lemma setVoxel_preserves_atlasWF (w : World) (x y z r g b a : Int)
    (hW : AtlasWF w) : AtlasWF (w.setVoxel x y z r g b a).1 := by
  obtain ⟨hn1, hnd, hmem⟩ := hW
  by_cases hb : x < 0 ∨ (w.worldSize : Int) ≤ x ∨ y < 0 ∨ (w.worldSize : Int) ≤ y ∨
      z < 0 ∨ (w.worldSize : Int) ≤ z
  · rw [setVoxel_oob_eq w x y z r g b a hb]
    exact ⟨hn1, hnd, hmem⟩
  by_cases hge : w.getCoarseIndex (x.fdiv (w.brickSize : Int))
      (y.fdiv (w.brickSize : Int)) (z.fdiv (w.brickSize : Int)) < 0
  · rw [setVoxel_negidx_eq w x y z r g b a hb hge]
    exact ⟨hn1, hnd, hmem⟩
  by_cases hcell : w.coarseGrid ((w.getCoarseIndex (x.fdiv (w.brickSize : Int))
      (y.fdiv (w.brickSize : Int)) (z.fdiv (w.brickSize : Int))).toNat) = 0
  · rw [setVoxel_fresh_eq w x y z r g b a hb hge hcell]
    have hknew : w.nextBrickIndex ∉ w.bricks.map Prod.fst := by
      intro hin
      rcases List.mem_map.mp hin with ⟨kv, hkv, hfst⟩
      have := (hmem kv hkv).1.2
      omega
    have hkeys1 := mapSet_keys_of_not_mem (m := w.bricks)
      (fun _ => (0 : Nat)) hknew
    have hknew2 : w.nextBrickIndex ∈
        (mapSet w.bricks w.nextBrickIndex (fun _ => 0)).map Prod.fst := by
      rw [hkeys1]
      exact List.mem_append_right _ (List.mem_singleton.mpr rfl)
    refine ⟨by dsimp; omega, ?_, ?_⟩
    · show ((mapSet (mapSet w.bricks w.nextBrickIndex (fun _ => 0)) w.nextBrickIndex
        _).map Prod.fst).Nodup
      rw [mapSet_keys_of_mem _ hknew2, hkeys1]
      simp only [List.nodup_append, List.nodup_cons, List.not_mem_nil,
        not_false_iff, List.nodup_nil, and_true, true_and]
      refine ⟨hnd, ?_⟩
      intro u hu hv
      rw [List.mem_singleton] at hv
      subst hv
      exact hknew hu
    · intro kv hkv
      rcases mem_mapSet hkv with rfl | hkv2
      · constructor
        · dsimp
          omega
        · dsimp
          refine u8write_bytes_lt _ _ (u8write_bytes_lt _ _
            (u8write_bytes_lt _ _ (u8write_bytes_lt _ _ ?_)))
          intro n
          omega
      · rcases mem_mapSet hkv2 with rfl | hkv3
        · exact ⟨by dsimp; omega, fun n => by dsimp; omega⟩
        · have := hmem kv hkv3
          exact ⟨by dsimp; omega, this.2⟩
  · cases hmg : mapGet w.bricks (w.coarseGrid ((w.getCoarseIndex
        (x.fdiv (w.brickSize : Int)) (y.fdiv (w.brickSize : Int))
        (z.fdiv (w.brickSize : Int))).toNat)) with
    | none =>
      rw [setVoxel_missing_eq w x y z r g b a hb hge hcell hmg]
      exact ⟨hn1, hnd, hmem⟩
    | some d =>
      rw [setVoxel_existing_eq w x y z r g b a hb hge hcell d hmg]
      have hdm : (w.coarseGrid ((w.getCoarseIndex (x.fdiv (w.brickSize : Int))
          (y.fdiv (w.brickSize : Int)) (z.fdiv (w.brickSize : Int))).toNat), d) ∈
          w.bricks := mapGet_mem hmg
      have hkin : w.coarseGrid ((w.getCoarseIndex (x.fdiv (w.brickSize : Int))
          (y.fdiv (w.brickSize : Int)) (z.fdiv (w.brickSize : Int))).toNat) ∈
          w.bricks.map Prod.fst := List.mem_map_of_mem Prod.fst hdm
      refine ⟨hn1, ?_, ?_⟩
      · show ((mapSet w.bricks _ _).map Prod.fst).Nodup
        rw [mapSet_keys_of_mem _ hkin]
        exact hnd
      · intro kv hkv
        rcases mem_mapSet hkv with rfl | hkv2
        · refine ⟨(hmem _ hdm).1, ?_⟩
          dsimp
          exact u8write_bytes_lt _ _ (u8write_bytes_lt _ _
            (u8write_bytes_lt _ _ (u8write_bytes_lt _ _ (hmem _ hdm).2)))
        · exact hmem kv hkv2

lemma applySets_preserves_atlasWF (cs : List SetCall) (w : World)
    (hW : AtlasWF w) : AtlasWF (applySets w cs) := by
  induction cs generalizing w with
  | nil => exact hW
  | cons c rest ih =>
    exact ih _ (setVoxel_preserves_atlasWF w c.x c.y c.z c.r c.g c.b c.a hW)

/-- Core atlas-fidelity computation: on a well-formed world whose bricks
all fit in the atlas, the atlas byte at the mapped destination of local
voxel `(lx,ly,lz)` of the brick stored under key `k` is exactly that
brick's source byte. -/
lemma buildAtlas_byte (w : World) (k lx ly lz c : Nat) (brick : Nat → Nat)
    (hWF : AtlasWF w)
    (hfit : w.nextBrickIndex ≤ w.atlasSize * w.atlasSize * w.atlasSize + 1)
    (hbr : mapGet w.bricks k = some brick)
    (hlx : lx < w.brickSize) (hly : ly < w.brickSize) (hlz : lz < w.brickSize)
    (hc : c < 4) :
    w.buildAtlas (natAtlasDst w.atlasSize w.brickSize k lx ly lz + c) =
      brick ((lx + ly * w.brickSize + lz * w.brickSize * w.brickSize) * 4 + c) := by
  obtain ⟨hn1, hnd, hmemWF⟩ := hWF
  have hmem : (k, brick) ∈ w.bricks := mapGet_mem hbr
  have hk1 : 1 ≤ k := (hmemWF _ hmem).1.1
  have hkA : k ≤ w.atlasSize * w.atlasSize * w.atlasSize := by
    have := (hmemWF _ hmem).1.2
    omega
  have hbytes : ∀ n, brick n < 256 := (hmemWF _ hmem).2
  rw [buildAtlas_as_writes]
  apply applyWrites_content
  · refine ⟨(atlasDst w.atlasSize w.brickSize k lx ly lz + (c : Int),
      brick ((lx + ly * w.brickSize + lz * w.brickSize * w.brickSize) * 4 + c)),
      List.mem_flatMap.mpr ⟨(k, brick), hmem, entryWrites_mem hlx hly hlz hc⟩,
      ?_, ?_, ?_⟩
    · show 0 ≤ atlasDst w.atlasSize w.brickSize k lx ly lz + (c : Int)
      rw [atlasDst_eq_nat _ _ _ _ _ _ hk1]
      positivity
    · show atlasDst w.atlasSize w.brickSize k lx ly lz + (c : Int) < _
      rw [atlasDst_eq_nat _ _ _ _ _ _ hk1]
      exact_mod_cast natAtlasDst_bound hk1 hkA hlx hly hlz hc
    · show (atlasDst w.atlasSize w.brickSize k lx ly lz + (c : Int)).toNat = _
      rw [atlasDst_eq_nat _ _ _ _ _ _ hk1]
      omega
  · rintro p hp ⟨hp0, hplen, hptn⟩
    obtain ⟨kv, hkv, hpe⟩ := List.mem_flatMap.mp hp
    obtain ⟨k2, data2⟩ := kv
    obtain ⟨lx2, hlx2, ly2, hly2, lz2, hlz2, c2, hc2, hp1, hp2⟩ := mem_entryWrites hpe
    have hk21 : 1 ≤ k2 := (hmemWF _ hkv).1.1
    have hk2A : k2 ≤ w.atlasSize * w.atlasSize * w.atlasSize := by
      have := (hmemWF _ hkv).1.2
      omega
    have heq : natAtlasDst w.atlasSize w.brickSize k2 lx2 ly2 lz2 + c2 =
        natAtlasDst w.atlasSize w.brickSize k lx ly lz + c := by
      rw [hp1, atlasDst_eq_nat _ _ _ _ _ _ hk21] at hptn
      omega
    obtain ⟨hke, hlxe, hlye, hlze, hce⟩ :=
      natAtlasDst_inj hk21 hk2A hk1 hkA hlx2 hly2 hlz2 hlx hly hlz hc2 hc heq
    subst hke
    have hdata : data2 = brick := mapKeys_unique hnd hkv hmem
    rw [hp2, hdata, hlxe, hlye, hlze, hce]
    exact Nat.mod_eq_of_lt (hbytes _)

lemma u8read_brickLocal (B : Nat) (brick : Nat → Nat) (lx ly lz c : Nat)
    (hlx : lx < B) (hly : ly < B) (hlz : lz < B) (hc : c < 4) :
    u8read (brickLen B) brick
      (brickLocalIndex B (lx : Int) (ly : Int) (lz : Int) + (c : Int)) =
      brick ((lx + ly * B + lz * B * B) * 4 + c) := by
  have hcast : brickLocalIndex B (lx : Int) (ly : Int) (lz : Int) + (c : Int) =
      (((lx + ly * B + lz * B * B) * 4 + c : Nat) : Int) := by
    unfold brickLocalIndex
    push_cast
    ring
  have hlt : (lx + ly * B + lz * B * B) * 4 + c < brickLen B :=
    digit3_bound hlx hly hlz hc
  rw [hcast]
  unfold u8read
  rw [if_pos ⟨by positivity, by exact_mod_cast hlt⟩, Int.toNat_natCast]

/-! ### Claim C3: the atlas reproduces every stored voxel record -/

/-- Claim C3: after any sequence of `setVoxel` calls on a fresh
`BrickMapWorld` (with every allocated brick index fitting in the
atlas), for every occupied voxel — a coordinate whose coarse cell holds
a brick index `k ≠ 0` with a stored brick and whose record has alpha
`> 0` — the buffer produced by `buildAtlas` contains, at the byte
offset of the atlas coordinate obtained from `k` via the mapping
`((k-1) mod A, ((k-1)/A) mod A, (k-1)/A²)` scaled by the brick size
plus the voxel's local-in-brick coordinate `(lx,ly,lz)`, exactly the
4-channel record that `getVoxel` returns at that coordinate. -/
theorem claim_C3_atlas_fidelity (C B : Nat) (cs : List SetCall) (w : World)
    (x y z : Int) (rec : VoxelRec) (k lx ly lz : Nat) (brick : Nat → Nat)
    (hw : w = applySets (mkWorld C B) cs)
    (hfit : w.nextBrickIndex ≤ w.atlasSize * w.atlasSize * w.atlasSize + 1)
    (hx0 : 0 ≤ x) (hx : x < (w.worldSize : Int))
    (hy0 : 0 ≤ y) (hy : y < (w.worldSize : Int))
    (hz0 : 0 ≤ z) (hz : z < (w.worldSize : Int))
    (hk : w.coarseGrid ((w.getCoarseIndex (x.fdiv (w.brickSize : Int))
      (y.fdiv (w.brickSize : Int)) (z.fdiv (w.brickSize : Int))).toNat) = k)
    (hk0 : k ≠ 0)
    (hbr : mapGet w.bricks k = some brick)
    (hlx : x.tmod (w.brickSize : Int) = (lx : Int))
    (hly : y.tmod (w.brickSize : Int) = (ly : Int))
    (hlz : z.tmod (w.brickSize : Int) = (lz : Int))
    (hget : w.getVoxel x y z = some rec)
    (hocc : 0 < rec.a) :
    w.buildAtlas (natAtlasDst w.atlasSize w.brickSize k lx ly lz) = rec.r ∧
    w.buildAtlas (natAtlasDst w.atlasSize w.brickSize k lx ly lz + 1) = rec.g ∧
    w.buildAtlas (natAtlasDst w.atlasSize w.brickSize k lx ly lz + 2) = rec.b ∧
    w.buildAtlas (natAtlasDst w.atlasSize w.brickSize k lx ly lz + 3) = rec.a := by
  have hWF : AtlasWF w := by
    rw [hw]
    exact applySets_preserves_atlasWF cs (mkWorld C B) (mkWorld_atlasWF C B)
  have hB : 0 < w.brickSize := by
    rcases Nat.eq_zero_or_pos w.brickSize with h0 | h0
    · exfalso
      have hws : w.worldSize = 0 := by simp [World.worldSize, h0]
      rw [hws] at hx
      push_cast at hx
      omega
    · exact h0
  have hlxB : lx < w.brickSize := by
    have h := tmod_coord_lt hx0 hB
    rw [hlx] at h
    exact_mod_cast h
  have hlyB : ly < w.brickSize := by
    have h := tmod_coord_lt hy0 hB
    rw [hly] at h
    exact_mod_cast h
  have hlzB : lz < w.brickSize := by
    have h := tmod_coord_lt hz0 hB
    rw [hlz] at h
    exact_mod_cast h
  have hgv := getVoxel_allocated w x y z k brick (brickLen w.brickSize)
    (brickLocalIndex w.brickSize (x.tmod (w.brickSize : Int))
      (y.tmod (w.brickSize : Int)) (z.tmod (w.brickSize : Int)))
    hx0 hx hy0 hy hz0 hz hk hk0 hbr rfl rfl
  rw [hget] at hgv
  have hrec := Option.some.inj hgv
  subst hrec
  rw [hlx, hly, hlz]
  have h0 := buildAtlas_byte w k lx ly lz 0 brick hWF hfit hbr hlxB hlyB hlzB
    (by omega)
  have h1 := buildAtlas_byte w k lx ly lz 1 brick hWF hfit hbr hlxB hlyB hlzB
    (by omega)
  have h2 := buildAtlas_byte w k lx ly lz 2 brick hWF hfit hbr hlxB hlyB hlzB
    (by omega)
  have h3 := buildAtlas_byte w k lx ly lz 3 brick hWF hfit hbr hlxB hlyB hlzB
    (by omega)
  rw [Nat.add_zero, Nat.add_zero] at h0
  have r0 := u8read_brickLocal w.brickSize brick lx ly lz 0 hlxB hlyB hlzB
    (by omega)
  have r1 := u8read_brickLocal w.brickSize brick lx ly lz 1 hlxB hlyB hlzB
    (by omega)
  have r2 := u8read_brickLocal w.brickSize brick lx ly lz 2 hlxB hlyB hlzB
    (by omega)
  have r3 := u8read_brickLocal w.brickSize brick lx ly lz 3 hlxB hlyB hlzB
    (by omega)
  simp only [Nat.cast_zero, add_zero, Nat.add_zero] at r0
  simp only [Nat.cast_one] at r1
  simp only [Nat.cast_ofNat] at r2 r3
  exact ⟨by rw [r0] at *; exact h0, by rw [r1] at *; exact h1,
    by rw [r2] at *; exact h2, by rw [r3] at *; exact h3⟩

/-- Witness for C3: one voxel set at (3,4,5) on a fresh 16³ world; the
atlas bytes at the mapped position of brick 1 reproduce the record. -/
theorem claim_C3_atlas_fidelity_witness :
    (applySets (mkWorld 2 8) [⟨3, 4, 5, 10, 20, 30, 40⟩]).buildAtlas
        (natAtlasDst 64 8 1 3 4 5) = 10 ∧
    (applySets (mkWorld 2 8) [⟨3, 4, 5, 10, 20, 30, 40⟩]).buildAtlas
        (natAtlasDst 64 8 1 3 4 5 + 1) = 20 ∧
    (applySets (mkWorld 2 8) [⟨3, 4, 5, 10, 20, 30, 40⟩]).buildAtlas
        (natAtlasDst 64 8 1 3 4 5 + 2) = 30 ∧
    (applySets (mkWorld 2 8) [⟨3, 4, 5, 10, 20, 30, 40⟩]).buildAtlas
        (natAtlasDst 64 8 1 3 4 5 + 3) = 40 :=
  claim_C3_atlas_fidelity 2 8 [⟨3, 4, 5, 10, 20, 30, 40⟩]
    (applySets (mkWorld 2 8) [⟨3, 4, 5, 10, 20, 30, 40⟩])
    3 4 5 ⟨10, 20, 30, 40⟩ 1 3 4 5
    (u8write (brickLen 8) (u8write (brickLen 8) (u8write (brickLen 8)
      (u8write (brickLen 8) (fun _ => 0)
        (brickLocalIndex 8 3 4 5) 10)
        (brickLocalIndex 8 3 4 5 + 1) 20)
        (brickLocalIndex 8 3 4 5 + 2) 30)
        (brickLocalIndex 8 3 4 5 + 3) 40)
    rfl (by decide) (by decide) (by decide) (by decide) (by decide)
    (by decide) (by decide) (by decide) (by decide) rfl
    (by decide) (by decide) (by decide) (by decide) (by decide)

/-! ### Claim C1: exact hit for a single red voxel

`Rat`'s arithmetic is `@[irreducible]` by default, which blocks the
kernel-level evaluation used below; restore the default reducibility for
this development's concrete shader computations. -/

attribute [local semireducible] Rat.add Rat.sub Rat.mul Rat.inv

/-- The C1 scene: an 8³ world (coarseSize 1, brickSize 8) with the
single voxel (4,4,4) set to (255,0,0,255). -/
def worldC1 : World := ((mkWorld 1 8).setVoxel 4 4 4 255 0 0 255).1

/-- The one brick buffer of `worldC1`, as stored by `setVoxel`. -/
def brickC1 : Nat → Nat :=
  u8write (brickLen 8) (u8write (brickLen 8) (u8write (brickLen 8)
    (u8write (brickLen 8) (fun _ => 0) (brickLocalIndex 8 4 4 4) 255)
    (brickLocalIndex 8 4 4 4 + 1) 0)
    (brickLocalIndex 8 4 4 4 + 2) 0)
    (brickLocalIndex 8 4 4 4 + 3) 255

lemma worldC1_bricks : worldC1.bricks = [(1, brickC1)] := rfl

lemma worldC1_coarseGrid :
    worldC1.coarseGrid = Function.update (fun _ => 0) 0 1 := rfl

lemma worldC1_atlasWF : AtlasWF worldC1 :=
  setVoxel_preserves_atlasWF (mkWorld 1 8) 4 4 4 255 0 0 255 (mkWorld_atlasWF 1 8)

lemma brickC1_eq (m : Nat) :
    brickC1 m = if m = 1168 ∨ m = 1171 then 255 else 0 := by
  by_cases h1 : m = 1168
  · subst h1; decide
  by_cases h2 : m = 1169
  · subst h2; decide
  by_cases h3 : m = 1170
  · subst h3; decide
  by_cases h4 : m = 1171
  · subst h4; decide
  rw [if_neg (by omega)]
  unfold brickC1
  have hi0 : ¬(0 ≤ brickLocalIndex 8 4 4 4 ∧
      brickLocalIndex 8 4 4 4 < ((brickLen 8 : Nat) : Int) ∧
      (brickLocalIndex 8 4 4 4).toNat = m) := by
    rintro ⟨-, -, he⟩
    rw [show (brickLocalIndex 8 4 4 4).toNat = 1168 from rfl] at he
    exact h1 he.symm
  have hi1 : ¬(0 ≤ brickLocalIndex 8 4 4 4 + 1 ∧
      brickLocalIndex 8 4 4 4 + 1 < ((brickLen 8 : Nat) : Int) ∧
      (brickLocalIndex 8 4 4 4 + 1).toNat = m) := by
    rintro ⟨-, -, he⟩
    rw [show (brickLocalIndex 8 4 4 4 + 1).toNat = 1169 from rfl] at he
    exact h2 he.symm
  have hi2 : ¬(0 ≤ brickLocalIndex 8 4 4 4 + 2 ∧
      brickLocalIndex 8 4 4 4 + 2 < ((brickLen 8 : Nat) : Int) ∧
      (brickLocalIndex 8 4 4 4 + 2).toNat = m) := by
    rintro ⟨-, -, he⟩
    rw [show (brickLocalIndex 8 4 4 4 + 2).toNat = 1170 from rfl] at he
    exact h3 he.symm
  have hi3 : ¬(0 ≤ brickLocalIndex 8 4 4 4 + 3 ∧
      brickLocalIndex 8 4 4 4 + 3 < ((brickLen 8 : Nat) : Int) ∧
      (brickLocalIndex 8 4 4 4 + 3).toNat = m) := by
    rintro ⟨-, -, he⟩
    rw [show (brickLocalIndex 8 4 4 4 + 3).toNat = 1171 from rfl] at he
    exact h4 he.symm
  rw [u8write_notat _ _ _ _ _ hi3, u8write_notat _ _ _ _ _ hi2,
    u8write_notat _ _ _ _ _ hi1, u8write_notat _ _ _ _ _ hi0]

lemma srcIdx_inj {B lx ly lz c lx2 ly2 lz2 c2 : Nat}
    (hlx : lx < B) (hlx2 : lx2 < B) (hly : ly < B) (hly2 : ly2 < B)
    (hc : c < 4) (hc2 : c2 < 4)
    (h : (lx + ly * B + lz * B * B) * 4 + c =
      (lx2 + ly2 * B + lz2 * B * B) * 4 + c2) :
    lx = lx2 ∧ ly = ly2 ∧ lz = lz2 ∧ c = c2 := by
  have hL : lx + ly * B + lz * B * B = lx2 + ly2 * B + lz2 * B * B ∧ c = c2 := by
    constructor <;> omega
  obtain ⟨e1, e2, e3⟩ := digits3_inj hlx hlx2 hly hly2 hL.1
  exact ⟨e1, e2, e3, hL.2⟩

/-- The atlas of `worldC1`, byte for byte: only the red and alpha bytes
of the voxel mapped from brick 1, local (4,4,4), are non-zero. -/
def atlasBytesC1 : Nat → Nat :=
  fun n => if n = 4202512 ∨ n = 4202515 then 255 else 0

lemma buildAtlas_worldC1 : worldC1.buildAtlas = atlasBytesC1 := by
  funext n
  by_cases hw : ∃ lx, lx < 8 ∧ ∃ ly, ly < 8 ∧ ∃ lz, lz < 8 ∧ ∃ c : Nat, c < 4 ∧
      n = natAtlasDst 64 8 1 lx ly lz + c
  · obtain ⟨lx, hlx, ly, hly, lz, hlz, c, hc, rfl⟩ := hw
    have hb : worldC1.buildAtlas (natAtlasDst 64 8 1 lx ly lz + c) =
        brickC1 ((lx + ly * 8 + lz * 8 * 8) * 4 + c) :=
      buildAtlas_byte worldC1 1 lx ly lz c brickC1 worldC1_atlasWF
        (by decide) rfl hlx hly hlz hc
    rw [hb, brickC1_eq]
    unfold atlasBytesC1
    by_cases hA : lx = 4 ∧ ly = 4 ∧ lz = 4 ∧ c = 0
    · obtain ⟨rfl, rfl, rfl, rfl⟩ := hA
      decide
    by_cases hB : lx = 4 ∧ ly = 4 ∧ lz = 4 ∧ c = 3
    · obtain ⟨rfl, rfl, rfl, rfl⟩ := hB
      decide
    rw [if_neg ?hsrc, if_neg ?hdst]
    case hsrc =>
      rintro (h1 | h1)
      · have h2 : (lx + ly * 8 + lz * 8 * 8) * 4 + c =
            (4 + 4 * 8 + 4 * 8 * 8) * 4 + 0 := by omega
        obtain ⟨e1, e2, e3, e4⟩ := srcIdx_inj hlx (by norm_num) hly (by norm_num)
          hc (by norm_num) h2
        exact hA ⟨e1, e2, e3, e4⟩
      · have h2 : (lx + ly * 8 + lz * 8 * 8) * 4 + c =
            (4 + 4 * 8 + 4 * 8 * 8) * 4 + 3 := by omega
        obtain ⟨e1, e2, e3, e4⟩ := srcIdx_inj hlx (by norm_num) hly (by norm_num)
          hc (by norm_num) h2
        exact hB ⟨e1, e2, e3, e4⟩
    case hdst =>
      rintro (h1 | h1)
      · have h2 : natAtlasDst 64 8 1 lx ly lz + c = natAtlasDst 64 8 1 4 4 4 + 0 := by
          rw [show natAtlasDst 64 8 1 4 4 4 = 4202512 by decide]
          omega
        obtain ⟨-, e2, e3, e4, e5⟩ := natAtlasDst_inj (by norm_num) (by norm_num)
          (by norm_num) (by norm_num) hlx hly hlz (by norm_num) (by norm_num)
          (by norm_num) hc (by norm_num) h2
        exact hA ⟨e2, e3, e4, e5⟩
      · have h2 : natAtlasDst 64 8 1 lx ly lz + c = natAtlasDst 64 8 1 4 4 4 + 3 := by
          rw [show natAtlasDst 64 8 1 4 4 4 = 4202512 by decide]
          omega
        obtain ⟨-, e2, e3, e4, e5⟩ := natAtlasDst_inj (by norm_num) (by norm_num)
          (by norm_num) (by norm_num) hlx hly hlz (by norm_num) (by norm_num)
          (by norm_num) hc (by norm_num) h2
        exact hB ⟨e2, e3, e4, e5⟩
  · rw [buildAtlas_as_writes]
    rw [applyWrites_frame _ _ _ _ ?frame]
    case frame =>
      rintro p hp ⟨hp0, hpl, hptn⟩
      obtain ⟨kv, hkv, hpe⟩ := List.mem_flatMap.mp hp
      rw [worldC1_bricks, List.mem_singleton] at hkv
      subst hkv
      obtain ⟨lx, hlx, ly, hly, lz, hlz, c, hc, hp1, -⟩ := mem_entryWrites hpe
      apply hw
      refine ⟨lx, hlx, ly, hly, lz, hlz, c, hc, ?_⟩
      rw [hp1, atlasDst_eq_nat _ _ _ _ _ _ (by norm_num)] at hptn
      have hconv : natAtlasDst worldC1.atlasSize worldC1.brickSize 1 lx ly lz =
          natAtlasDst 64 8 1 lx ly lz := rfl
      rw [hconv] at hptn
      omega
    show 0 = atlasBytesC1 n
    unfold atlasBytesC1
    rw [if_neg]
    rintro (h1 | h1)
    · exact hw ⟨4, by norm_num, 4, by norm_num, 4, by norm_num, 0, by norm_num,
        by rw [h1]; decide⟩
    · exact hw ⟨4, by norm_num, 4, by norm_num, 4, by norm_num, 3, by norm_num,
        by rw [h1]; decide⟩

/-- The shader environment of the C1 scene, with the textures written
out explicitly. -/
def envC1 : ShaderEnv where
  coarseGridSize := 1
  atlasSize := 64
  maxSteps := 256
  coarseTex := fun tx ty tz =>
    if (tx + ty * 1 + tz * 1 * 1).toNat = 0 then 1 else 0
  atlasTex := fun tx ty tz =>
    let s : Int := 512
    let base := (tx + ty * s + tz * s * s) * 4
    ⟨XF.fin (atlasBytesC1 base.toNat : ℚ),
      XF.fin (atlasBytesC1 (base.toNat + 1) : ℚ),
      XF.fin (atlasBytesC1 (base.toNat + 2) : ℚ),
      XF.fin (atlasBytesC1 (base.toNat + 3) : ℚ)⟩

lemma envOfWorld_worldC1 : envOfWorld worldC1 256 = envC1 := by
  unfold envOfWorld envC1
  congr 1
  · funext tx ty tz
    rw [worldC1_coarseGrid]
    have hidx : (tx + ty * ((worldC1.coarseSize : Nat) : Int) +
        tz * ((worldC1.coarseSize : Nat) : Int) * ((worldC1.coarseSize : Nat) : Int)).toNat =
        (tx + ty * 1 + tz * 1 * 1).toNat := rfl
    rw [hidx]
    by_cases h : (tx + ty * 1 + tz * 1 * 1).toNat = 0
    · rw [if_pos h, h, Function.update_same]
    · rw [if_neg h, Function.update_noteq h]
  · funext tx ty tz
    rw [buildAtlas_worldC1]
    rfl

set_option maxRecDepth 100000 in
/-- Claim C1: on the 8³ world (brickSize 8, coarseSize 1) whose only set
voxel is (4,4,4) with record (255,0,0,255), `traceRay` on the ray with
origin (4,4,-10) and direction (0,0,1) — run against the textures the
engine uploads for that world, with `u_maxSteps = 256` — returns
`hit = true`, the color (255,0,0,255), the normal (0,0,-1), and distance
exactly 14.0. -/
theorem claim_C1_hit_exactness :
    (traceRay (envOfWorld worldC1 256) ⟨XF.fin 4, XF.fin 4, XF.fin (-10)⟩
      ⟨XF.fin 0, XF.fin 0, XF.fin 1⟩).hit = true ∧
    (traceRay (envOfWorld worldC1 256) ⟨XF.fin 4, XF.fin 4, XF.fin (-10)⟩
      ⟨XF.fin 0, XF.fin 0, XF.fin 1⟩).color =
      ⟨XF.fin 255, XF.fin 0, XF.fin 0, XF.fin 255⟩ ∧
    (traceRay (envOfWorld worldC1 256) ⟨XF.fin 4, XF.fin 4, XF.fin (-10)⟩
      ⟨XF.fin 0, XF.fin 0, XF.fin 1⟩).normal = ⟨XF.fin 0, XF.fin 0, XF.fin (-1)⟩ ∧
    (traceRay (envOfWorld worldC1 256) ⟨XF.fin 4, XF.fin 4, XF.fin (-10)⟩
      ⟨XF.fin 0, XF.fin 0, XF.fin 1⟩).distance = XF.fin 14 := by
  rw [envOfWorld_worldC1]
  decide

/-! ### Claim C8: the coarse loop respects the step budget -/

/-- The brick loop either reports a hit on a voxel with positive alpha
(leaving the step counter untouched), or leaves the result unchanged. -/
lemma brickLoop_spec (env : ShaderEnv) (bi : Nat) (o d bm : V3) (st : I3)
    (dd : V3) :
    ∀ (fuel : Nat) (mp : I3) (sd : V3) (side : Nat) (res : HitResult),
      ((brickLoop env bi o d bm st dd fuel mp sd side res).1 = true ∧
        XF.lt (XF.fin 0)
          (brickLoop env bi o d bm st dd fuel mp sd side res).2.color.a = true ∧
        (brickLoop env bi o d bm st dd fuel mp sd side res).2.steps = res.steps) ∨
      ((brickLoop env bi o d bm st dd fuel mp sd side res).1 = false ∧
        (brickLoop env bi o d bm st dd fuel mp sd side res).2 = res) := by
  intro fuel
  induction fuel with
  | zero =>
    intro mp sd side res
    right
    exact ⟨rfl, rfl⟩
  | succ n ih =>
    intro mp sd side res
    simp only [brickLoop]
    by_cases hv : XF.lt (XF.fin 0) (getVoxelFromBrick env bi mp).a = true
    · rw [if_pos hv]
      left
      exact ⟨rfl, hv, rfl⟩
    · rw [if_neg hv]
      by_cases hoob : (ddaStep sd dd mp st).2.1.x < 0 ∨ 8 ≤ (ddaStep sd dd mp st).2.1.x ∨
          (ddaStep sd dd mp st).2.1.y < 0 ∨ 8 ≤ (ddaStep sd dd mp st).2.1.y ∨
          (ddaStep sd dd mp st).2.1.z < 0 ∨ 8 ≤ (ddaStep sd dd mp st).2.1.z
      · rw [if_pos hoob]
        right
        exact ⟨rfl, rfl⟩
      · rw [if_neg hoob]
        exact ih _ _ _ _

/-- `traceBrick` either reports a hit on a voxel with positive alpha
(leaving the step counter untouched), or leaves the result unchanged. -/
lemma traceBrick_spec (env : ShaderEnv) (bi : Nat) (o d : V3) (cp : I3)
    (res : HitResult) :
    ((traceBrick env bi o d cp res).1 = true ∧
      XF.lt (XF.fin 0) (traceBrick env bi o d cp res).2.color.a = true ∧
      (traceBrick env bi o d cp res).2.steps = res.steps) ∨
    ((traceBrick env bi o d cp res).1 = false ∧
      (traceBrick env bi o d cp res).2 = res) := by
  unfold traceBrick
  dsimp only
  split
  · right
    exact ⟨rfl, rfl⟩
  · exact brickLoop_spec env bi o d _ _ _ 24 _ _ 0 res

/-- The coarse loop invariant: the recorded step count never exceeds
`max res.steps (min u_maxSteps (i + fuel))`, and starting from a
non-hit result the loop either ends without a hit or hits a voxel with
positive alpha. -/
lemma coarseLoop_spec (env : ShaderEnv) (o d : V3) (st : I3) (dd : V3) :
    ∀ (fuel i : Nat) (cp : I3) (sd : V3) (res : HitResult),
      res.hit = false →
      (coarseLoop env o d st dd fuel i cp sd res).steps ≤
        max res.steps (min env.maxSteps (i + fuel)) ∧
      ((coarseLoop env o d st dd fuel i cp sd res).hit = false ∨
        XF.lt (XF.fin 0) (coarseLoop env o d st dd fuel i cp sd res).color.a = true) := by
  intro fuel
  induction fuel with
  | zero =>
    intro i cp sd res hres
    exact ⟨Nat.le_max_left _ _, Or.inl hres⟩
  | succ n ih =>
    intro i cp sd res hres
    simp only [coarseLoop]
    by_cases hms : env.maxSteps ≤ i
    · rw [if_pos hms]
      exact ⟨Nat.le_max_left _ _, Or.inl hres⟩
    · rw [if_neg hms]
      have hms' : i < env.maxSteps := by omega
      rcases hbr : (if 0 < getBrickIndex env cp then
          traceBrick env (getBrickIndex env cp) o d cp { res with steps := i + 1 }
        else (false, { res with steps := i + 1 })) with ⟨b, r⟩
      have hspec : (b = true ∧ XF.lt (XF.fin 0) r.color.a = true ∧
          r.steps = i + 1) ∨ (b = false ∧ r = { res with steps := i + 1 }) := by
        by_cases hbi : 0 < getBrickIndex env cp
        · rw [if_pos hbi] at hbr
          rcases traceBrick_spec env (getBrickIndex env cp) o d cp
              { res with steps := i + 1 } with ⟨h1, h2, h3⟩ | ⟨h1, h2⟩
          · rw [hbr] at h1 h2 h3
            exact Or.inl ⟨h1, h2, h3⟩
          · rw [hbr] at h1 h2
            exact Or.inr ⟨h1, h2⟩
        · rw [if_neg hbi] at hbr
          injection hbr with hb hr
          exact Or.inr ⟨hb.symm, hr.symm⟩
      rcases hspec with ⟨rfl, h2, h3⟩ | ⟨rfl, rfl⟩
      · rw [if_pos rfl]
        refine ⟨?_, Or.inr h2⟩
        show r.steps ≤ _
        rw [h3]
        have : i + 1 ≤ min env.maxSteps (i + (n + 1)) := by omega
        omega
      · rw [if_neg (by simp)]
        by_cases hoob : (ddaStep sd dd cp st).2.1.x < 0 ∨
            (env.coarseGridSize : Int) ≤ (ddaStep sd dd cp st).2.1.x ∨
            (ddaStep sd dd cp st).2.1.y < 0 ∨
            (env.coarseGridSize : Int) ≤ (ddaStep sd dd cp st).2.1.y ∨
            (ddaStep sd dd cp st).2.1.z < 0 ∨
            (env.coarseGridSize : Int) ≤ (ddaStep sd dd cp st).2.1.z
        · rw [if_pos hoob]
          refine ⟨?_, Or.inl hres⟩
          show i + 1 ≤ _
          have : i + 1 ≤ min env.maxSteps (i + (n + 1)) := by omega
          omega
        · rw [if_neg hoob]
          obtain ⟨hs, hh⟩ := ih (i + 1) (ddaStep sd dd cp st).2.1
            (ddaStep sd dd cp st).1 { res with steps := i + 1 } hres
          refine ⟨?_, hh⟩
          refine le_trans hs ?_
          show max (i + 1) _ ≤ _
          omega

/-- Claim C8: for every environment (hence every `u_maxSteps` value) and
every ray, the coarse DDA loop of `traceRay` runs at most
`min(u_maxSteps, 512)` iterations — the recorded step count never
exceeds that bound — and when the traversal ends without finding an
occupied voxel (one with alpha `> 0`) it returns normally with
`hit = false`; a `hit = true` result always carries a voxel with
positive alpha. -/
theorem claim_C8_step_budget (env : ShaderEnv) (o d : V3) :
    (traceRay env o d).steps ≤ min env.maxSteps 512 ∧
    ((traceRay env o d).hit = false ∨
      XF.lt (XF.fin 0) (traceRay env o d).color.a = true) := by
  unfold traceRay
  dsimp only
  split
  · exact ⟨Nat.zero_le _, Or.inl rfl⟩
  · obtain ⟨hs, hh⟩ := coarseLoop_spec env o d _ _ 512 0 _ _
      { hit := false, pos := ⟨XF.fin 0, XF.fin 0, XF.fin 0⟩,
        normal := ⟨XF.fin 0, XF.fin 0, XF.fin 0⟩,
        color := ⟨XF.fin 0, XF.fin 0, XF.fin 0, XF.fin 0⟩,
        distance := XF.fin 0, steps := 0 } rfl
    refine ⟨le_trans hs ?_, hh⟩
    show max 0 (min env.maxSteps (0 + 512)) ≤ _
    omega

/-! ### Claim C5: zero direction components are division-safe -/

lemma XF.lt_inf_left (w : XF) : XF.lt XF.inf w = false := by
  cases w <;> rfl

lemma XF.lt_ninf_right (w : XF) : XF.lt w XF.ninf = false := by
  cases w <;> rfl

lemma XF.lt_fin_inf {x : XF} {q : ℚ} (h : XF.lt x (XF.fin q) = true) :
    XF.lt x XF.inf = true := by
  cases x <;> simp_all [XF.lt]

lemma XF.div_fin_zero_pos {p : ℚ} (hp : 0 < p) :
    (XF.fin p).div (XF.fin 0) = XF.inf := by
  simp only [XF.div]
  rw [if_pos trivial, if_pos hp]

lemma XF.div_fin_zero_neg {p : ℚ} (hp : p < 0) :
    (XF.fin p).div (XF.fin 0) = XF.ninf := by
  simp only [XF.div]
  rw [if_pos trivial, if_neg (by linarith), if_pos hp]

lemma XF.div_fin_fin {q : ℚ} (p : ℚ) (hq : q ≠ 0) :
    (XF.fin p).div (XF.fin q) = XF.fin (p / q) := by
  simp only [XF.div]
  rw [if_neg hq]

lemma XF.sub_fin (a b : ℚ) : (XF.fin a).sub (XF.fin b) = XF.fin (a - b) := by
  show XF.fin (a + -b) = XF.fin (a - b)
  rw [← sub_eq_add_neg]

lemma XF.mul_fin_inf_pos {c : ℚ} (hc : 0 < c) :
    (XF.fin c).mul XF.inf = XF.inf := by
  simp only [XF.mul]
  rw [if_pos hc]

lemma XF.fmin_fin_fin_form (a b : ℚ) :
    ∃ c, XF.fmin (XF.fin a) (XF.fin b) = XF.fin c := by
  unfold XF.fmin
  split
  · exact ⟨b, rfl⟩
  · exact ⟨a, rfl⟩

lemma XF.fmax_fin_fin_form (a b : ℚ) :
    ∃ c, XF.fmax (XF.fin a) (XF.fin b) = XF.fin c := by
  unfold XF.fmax
  split
  · exact ⟨b, rfl⟩
  · exact ⟨a, rfl⟩

lemma XF.fmax_finform_finform {x y : XF} (hx : ∃ c, x = XF.fin c)
    (hy : ∃ c, y = XF.fin c) : ∃ c, XF.fmax x y = XF.fin c := by
  obtain ⟨a, rfl⟩ := hx
  obtain ⟨b, rfl⟩ := hy
  exact XF.fmax_fin_fin_form a b

lemma XF.fmin_finform_finform {x y : XF} (hx : ∃ c, x = XF.fin c)
    (hy : ∃ c, y = XF.fin c) : ∃ c, XF.fmin x y = XF.fin c := by
  obtain ⟨a, rfl⟩ := hx
  obtain ⟨b, rfl⟩ := hy
  exact XF.fmin_fin_fin_form a b

lemma XF.fmax_ninf_finform {x : XF} (hx : ∃ c, x = XF.fin c) :
    XF.fmax XF.ninf x = x := by
  obtain ⟨c, rfl⟩ := hx
  rfl

lemma XF.fmax_finform_ninf {x : XF} (hx : ∃ c, x = XF.fin c) :
    XF.fmax x XF.ninf = x := by
  obtain ⟨c, rfl⟩ := hx
  rfl

lemma XF.fmin_inf_finform {x : XF} (hx : ∃ c, x = XF.fin c) :
    XF.fmin XF.inf x = x := by
  obtain ⟨c, rfl⟩ := hx
  rfl

lemma XF.fmin_finform_inf {x : XF} (hx : ∃ c, x = XF.fin c) :
    XF.fmin x XF.inf = x := by
  obtain ⟨c, rfl⟩ := hx
  rfl

lemma XF.mul_fin_fin (a b : ℚ) : (XF.fin a).mul (XF.fin b) = XF.fin (a * b) := rfl

lemma XF.add_fin_fin (a b : ℚ) : (XF.fin a).add (XF.fin b) = XF.fin (a + b) := rfl

/-- Claim C5: for a ray direction with a zero component on an axis, no
division is undefined: the per-axis cross distance (`deltaDist`, both at
the coarse and the brick level) on that axis is infinite, the initial
side distance on that axis is infinite, the DDA step never selects that
axis (for the z tie-break branch, provided a sibling axis has a finite
side distance), and the slab-method box intersection with the ray
strictly inside the degenerate axis' slab equals the slab computed from
the two remaining axes alone. -/
theorem claim_C5_zero_direction_safety :
    (∀ d : V3, d.x = XF.fin 0 →
      (coarseDeltaDist d).x = XF.inf ∧ (brickDeltaDist d).x = XF.inf) ∧
    (∀ d : V3, d.y = XF.fin 0 →
      (coarseDeltaDist d).y = XF.inf ∧ (brickDeltaDist d).y = XF.inf) ∧
    (∀ d : V3, d.z = XF.fin 0 →
      (coarseDeltaDist d).z = XF.inf ∧ (brickDeltaDist d).z = XF.inf) ∧
    (∀ (d start deltaDist : V3) (pos : I3) (s : ℚ), d.x = XF.fin 0 →
      start.x = XF.fin s → deltaDist.x = XF.inf →
      (ddaSideDist d pos start deltaDist).x = XF.inf) ∧
    (∀ (d start deltaDist : V3) (pos : I3) (s : ℚ), d.y = XF.fin 0 →
      start.y = XF.fin s → deltaDist.y = XF.inf →
      (ddaSideDist d pos start deltaDist).y = XF.inf) ∧
    (∀ (d start deltaDist : V3) (pos : I3) (s : ℚ), d.z = XF.fin 0 →
      start.z = XF.fin s → deltaDist.z = XF.inf →
      (ddaSideDist d pos start deltaDist).z = XF.inf) ∧
    (∀ (sideDist deltaDist : V3) (pos st : I3), sideDist.x = XF.inf →
      (ddaStep sideDist deltaDist pos st).2.1.x = pos.x ∧
      (ddaStep sideDist deltaDist pos st).2.2 ≠ 0) ∧
    (∀ (sideDist deltaDist : V3) (pos st : I3), sideDist.y = XF.inf →
      (ddaStep sideDist deltaDist pos st).2.1.y = pos.y ∧
      (ddaStep sideDist deltaDist pos st).2.2 ≠ 1) ∧
    (∀ (sideDist deltaDist : V3) (pos st : I3) (q : ℚ), sideDist.z = XF.inf →
      sideDist.y = XF.fin q →
      (ddaStep sideDist deltaDist pos st).2.1.z = pos.z ∧
      (ddaStep sideDist deltaDist pos st).2.2 ≠ 2) ∧
    (∀ ox oy oz dy dz bx0 by0 bz0 bx1 by1 bz1 : ℚ, dy ≠ 0 → dz ≠ 0 →
      bx0 < ox → ox < bx1 →
      intersectAABB ⟨XF.fin ox, XF.fin oy, XF.fin oz⟩
        ⟨XF.fin 0, XF.fin dy, XF.fin dz⟩
        ⟨XF.fin bx0, XF.fin by0, XF.fin bz0⟩ ⟨XF.fin bx1, XF.fin by1, XF.fin bz1⟩ =
      (XF.fmax (XF.fmin (XF.fin ((by0 - oy) / dy)) (XF.fin ((by1 - oy) / dy)))
        (XF.fmin (XF.fin ((bz0 - oz) / dz)) (XF.fin ((bz1 - oz) / dz))),
       XF.fmin (XF.fmax (XF.fin ((by0 - oy) / dy)) (XF.fin ((by1 - oy) / dy)))
        (XF.fmax (XF.fin ((bz0 - oz) / dz)) (XF.fin ((bz1 - oz) / dz))))) ∧
    (∀ ox oy oz dx dz bx0 by0 bz0 bx1 by1 bz1 : ℚ, dx ≠ 0 → dz ≠ 0 →
      by0 < oy → oy < by1 →
      intersectAABB ⟨XF.fin ox, XF.fin oy, XF.fin oz⟩
        ⟨XF.fin dx, XF.fin 0, XF.fin dz⟩
        ⟨XF.fin bx0, XF.fin by0, XF.fin bz0⟩ ⟨XF.fin bx1, XF.fin by1, XF.fin bz1⟩ =
      (XF.fmax (XF.fmin (XF.fin ((bx0 - ox) / dx)) (XF.fin ((bx1 - ox) / dx)))
        (XF.fmin (XF.fin ((bz0 - oz) / dz)) (XF.fin ((bz1 - oz) / dz))),
       XF.fmin (XF.fmax (XF.fin ((bx0 - ox) / dx)) (XF.fin ((bx1 - ox) / dx)))
        (XF.fmax (XF.fin ((bz0 - oz) / dz)) (XF.fin ((bz1 - oz) / dz))))) ∧
    (∀ ox oy oz dx dy bx0 by0 bz0 bx1 by1 bz1 : ℚ, dx ≠ 0 → dy ≠ 0 →
      bz0 < oz → oz < bz1 →
      intersectAABB ⟨XF.fin ox, XF.fin oy, XF.fin oz⟩
        ⟨XF.fin dx, XF.fin dy, XF.fin 0⟩
        ⟨XF.fin bx0, XF.fin by0, XF.fin bz0⟩ ⟨XF.fin bx1, XF.fin by1, XF.fin bz1⟩ =
      (XF.fmax (XF.fmin (XF.fin ((bx0 - ox) / dx)) (XF.fin ((bx1 - ox) / dx)))
        (XF.fmin (XF.fin ((by0 - oy) / dy)) (XF.fin ((by1 - oy) / dy))),
       XF.fmin (XF.fmax (XF.fin ((bx0 - ox) / dx)) (XF.fin ((bx1 - ox) / dx)))
        (XF.fmax (XF.fin ((by0 - oy) / dy)) (XF.fin ((by1 - oy) / dy))))) := by
  refine ⟨?_, ?_, ?_, ?_, ?_, ?_, ?_, ?_, ?_, ?_, ?_, ?_⟩
  · intro d hd
    constructor
    · show ((XF.fin 8).div d.x).abs = XF.inf
      rw [hd, XF.div_fin_zero_pos (by norm_num)]
      rfl
    · show ((XF.fin 1).div d.x).abs = XF.inf
      rw [hd, XF.div_fin_zero_pos (by norm_num)]
      rfl
  · intro d hd
    constructor
    · show ((XF.fin 8).div d.y).abs = XF.inf
      rw [hd, XF.div_fin_zero_pos (by norm_num)]
      rfl
    · show ((XF.fin 1).div d.y).abs = XF.inf
      rw [hd, XF.div_fin_zero_pos (by norm_num)]
      rfl
  · intro d hd
    constructor
    · show ((XF.fin 8).div d.z).abs = XF.inf
      rw [hd, XF.div_fin_zero_pos (by norm_num)]
      rfl
    · show ((XF.fin 1).div d.z).abs = XF.inf
      rw [hd, XF.div_fin_zero_pos (by norm_num)]
      rfl
  · intro d start deltaDist pos s hd hs hdd
    show (((d.x.sgn.mul ((XF.ofInt pos.x).sub start.x)).add
      (d.x.sgn.mul (XF.fin (1 / 2)))).add (XF.fin (1 / 2))).mul deltaDist.x = XF.inf
    rw [hd, hs, hdd, show (XF.fin (0 : ℚ)).sgn = XF.fin 0 by norm_num [XF.sgn],
      show XF.ofInt pos.x = XF.fin ((pos.x : ℚ)) from rfl, XF.sub_fin,
      XF.mul_fin_fin, XF.mul_fin_fin, XF.add_fin_fin, XF.add_fin_fin,
      show (0 * ((pos.x : ℚ) - s) + 0 * (1 / 2) + 1 / 2 : ℚ) = 1 / 2 by ring]
    exact XF.mul_fin_inf_pos (by norm_num)
  · intro d start deltaDist pos s hd hs hdd
    show (((d.y.sgn.mul ((XF.ofInt pos.y).sub start.y)).add
      (d.y.sgn.mul (XF.fin (1 / 2)))).add (XF.fin (1 / 2))).mul deltaDist.y = XF.inf
    rw [hd, hs, hdd, show (XF.fin (0 : ℚ)).sgn = XF.fin 0 by norm_num [XF.sgn],
      show XF.ofInt pos.y = XF.fin ((pos.y : ℚ)) from rfl, XF.sub_fin,
      XF.mul_fin_fin, XF.mul_fin_fin, XF.add_fin_fin, XF.add_fin_fin,
      show (0 * ((pos.y : ℚ) - s) + 0 * (1 / 2) + 1 / 2 : ℚ) = 1 / 2 by ring]
    exact XF.mul_fin_inf_pos (by norm_num)
  · intro d start deltaDist pos s hd hs hdd
    show (((d.z.sgn.mul ((XF.ofInt pos.z).sub start.z)).add
      (d.z.sgn.mul (XF.fin (1 / 2)))).add (XF.fin (1 / 2))).mul deltaDist.z = XF.inf
    rw [hd, hs, hdd, show (XF.fin (0 : ℚ)).sgn = XF.fin 0 by norm_num [XF.sgn],
      show XF.ofInt pos.z = XF.fin ((pos.z : ℚ)) from rfl, XF.sub_fin,
      XF.mul_fin_fin, XF.mul_fin_fin, XF.add_fin_fin, XF.add_fin_fin,
      show (0 * ((pos.z : ℚ) - s) + 0 * (1 / 2) + 1 / 2 : ℚ) = 1 / 2 by ring]
    exact XF.mul_fin_inf_pos (by norm_num)
  · intro sideDist deltaDist pos st hx
    unfold ddaStep
    rw [hx, XF.lt_inf_left, if_neg (by simp)]
    split <;> exact ⟨rfl, by simp⟩
  · intro sideDist deltaDist pos st hy
    unfold ddaStep
    rw [hy]
    by_cases h1 : XF.lt sideDist.x XF.inf = true
    · rw [if_pos h1]
      split <;> exact ⟨rfl, by simp⟩
    · rw [if_neg h1, XF.lt_inf_left, if_neg (by simp)]
      exact ⟨rfl, by simp⟩
  · intro sideDist deltaDist pos st q hz hy
    unfold ddaStep
    rw [hz, hy]
    by_cases h1 : XF.lt sideDist.x (XF.fin q) = true
    · rw [if_pos h1, if_pos (XF.lt_fin_inf h1)]
      exact ⟨rfl, by simp⟩
    · rw [if_neg h1, if_pos (show XF.lt (XF.fin q) XF.inf = true from rfl)]
      exact ⟨rfl, by simp⟩
  · intro ox oy oz dy dz bx0 by0 bz0 bx1 by1 bz1 hdy hdz h1 h2
    unfold intersectAABB
    dsimp only
    simp only [XF.sub_fin]
    rw [XF.div_fin_zero_neg (by linarith), XF.div_fin_zero_pos (by linarith),
      XF.div_fin_fin _ hdy, XF.div_fin_fin _ hdy,
      XF.div_fin_fin _ hdz, XF.div_fin_fin _ hdz,
      show XF.fmin XF.ninf XF.inf = XF.ninf from rfl,
      show XF.fmax XF.ninf XF.inf = XF.inf from rfl,
      XF.fmax_ninf_finform (XF.fmin_fin_fin_form _ _),
      XF.fmin_inf_finform (XF.fmax_fin_fin_form _ _)]
  · intro ox oy oz dx dz bx0 by0 bz0 bx1 by1 bz1 hdx hdz h1 h2
    unfold intersectAABB
    dsimp only
    simp only [XF.sub_fin]
    rw [XF.div_fin_zero_neg (by linarith), XF.div_fin_zero_pos (by linarith),
      XF.div_fin_fin _ hdx, XF.div_fin_fin _ hdx,
      XF.div_fin_fin _ hdz, XF.div_fin_fin _ hdz,
      show XF.fmin XF.ninf XF.inf = XF.ninf from rfl,
      show XF.fmax XF.ninf XF.inf = XF.inf from rfl,
      XF.fmax_finform_ninf (XF.fmin_fin_fin_form _ _),
      XF.fmin_finform_inf (XF.fmax_fin_fin_form _ _)]
  · intro ox oy oz dx dy bx0 by0 bz0 bx1 by1 bz1 hdx hdy h1 h2
    unfold intersectAABB
    dsimp only
    simp only [XF.sub_fin]
    rw [XF.div_fin_zero_neg (by linarith), XF.div_fin_zero_pos (by linarith),
      XF.div_fin_fin _ hdx, XF.div_fin_fin _ hdx,
      XF.div_fin_fin _ hdy, XF.div_fin_fin _ hdy,
      show XF.fmin XF.ninf XF.inf = XF.ninf from rfl,
      show XF.fmax XF.ninf XF.inf = XF.inf from rfl,
      XF.fmax_finform_ninf (XF.fmax_finform_finform
        (XF.fmin_fin_fin_form _ _) (XF.fmin_fin_fin_form _ _)),
      XF.fmin_finform_inf (XF.fmin_finform_finform
        (XF.fmax_fin_fin_form _ _) (XF.fmax_fin_fin_form _ _))]

/-- Witness for C5 at concrete rays: a zero x/y/z direction component
gives infinite cross distances and side distances, the DDA avoids the
degenerate axis, and the slab result comes from the remaining axes. -/
theorem claim_C5_zero_direction_safety_witness :
    ((coarseDeltaDist ⟨XF.fin 0, XF.fin 1, XF.fin 1⟩).x = XF.inf ∧
      (brickDeltaDist ⟨XF.fin 0, XF.fin 1, XF.fin 1⟩).x = XF.inf) ∧
    ((coarseDeltaDist ⟨XF.fin 1, XF.fin 0, XF.fin 1⟩).y = XF.inf ∧
      (brickDeltaDist ⟨XF.fin 1, XF.fin 0, XF.fin 1⟩).y = XF.inf) ∧
    ((coarseDeltaDist ⟨XF.fin 1, XF.fin 1, XF.fin 0⟩).z = XF.inf ∧
      (brickDeltaDist ⟨XF.fin 1, XF.fin 1, XF.fin 0⟩).z = XF.inf) ∧
    (ddaSideDist ⟨XF.fin 0, XF.fin 1, XF.fin 1⟩ ⟨0, 0, 0⟩
      ⟨XF.fin 0, XF.fin 0, XF.fin 0⟩ ⟨XF.inf, XF.fin 1, XF.fin 1⟩).x = XF.inf ∧
    (ddaSideDist ⟨XF.fin 1, XF.fin 0, XF.fin 1⟩ ⟨0, 0, 0⟩
      ⟨XF.fin 0, XF.fin 0, XF.fin 0⟩ ⟨XF.fin 1, XF.inf, XF.fin 1⟩).y = XF.inf ∧
    (ddaSideDist ⟨XF.fin 1, XF.fin 1, XF.fin 0⟩ ⟨0, 0, 0⟩
      ⟨XF.fin 0, XF.fin 0, XF.fin 0⟩ ⟨XF.fin 1, XF.fin 1, XF.inf⟩).z = XF.inf ∧
    ((ddaStep ⟨XF.inf, XF.fin 1, XF.fin 2⟩ ⟨XF.inf, XF.fin 1, XF.fin 1⟩
        ⟨0, 0, 0⟩ ⟨0, 1, 1⟩).2.1.x = 0 ∧
      (ddaStep ⟨XF.inf, XF.fin 1, XF.fin 2⟩ ⟨XF.inf, XF.fin 1, XF.fin 1⟩
        ⟨0, 0, 0⟩ ⟨0, 1, 1⟩).2.2 ≠ 0) ∧
    ((ddaStep ⟨XF.fin 1, XF.inf, XF.fin 2⟩ ⟨XF.fin 1, XF.inf, XF.fin 1⟩
        ⟨0, 0, 0⟩ ⟨1, 0, 1⟩).2.1.y = 0 ∧
      (ddaStep ⟨XF.fin 1, XF.inf, XF.fin 2⟩ ⟨XF.fin 1, XF.inf, XF.fin 1⟩
        ⟨0, 0, 0⟩ ⟨1, 0, 1⟩).2.2 ≠ 1) ∧
    ((ddaStep ⟨XF.fin 1, XF.fin 2, XF.inf⟩ ⟨XF.fin 1, XF.fin 1, XF.inf⟩
        ⟨0, 0, 0⟩ ⟨1, 1, 0⟩).2.1.z = 0 ∧
      (ddaStep ⟨XF.fin 1, XF.fin 2, XF.inf⟩ ⟨XF.fin 1, XF.fin 1, XF.inf⟩
        ⟨0, 0, 0⟩ ⟨1, 1, 0⟩).2.2 ≠ 2) ∧
    intersectAABB ⟨XF.fin 4, XF.fin 4, XF.fin (-10)⟩ ⟨XF.fin 0, XF.fin 1, XF.fin 1⟩
      ⟨XF.fin 0, XF.fin 0, XF.fin 0⟩ ⟨XF.fin 8, XF.fin 8, XF.fin 8⟩ =
      (XF.fmax (XF.fmin (XF.fin ((0 - 4) / 1)) (XF.fin ((8 - 4) / 1)))
        (XF.fmin (XF.fin ((0 - -10) / 1)) (XF.fin ((8 - -10) / 1))),
       XF.fmin (XF.fmax (XF.fin ((0 - 4) / 1)) (XF.fin ((8 - 4) / 1)))
        (XF.fmax (XF.fin ((0 - -10) / 1)) (XF.fin ((8 - -10) / 1)))) ∧
    intersectAABB ⟨XF.fin 4, XF.fin 4, XF.fin (-10)⟩ ⟨XF.fin 1, XF.fin 0, XF.fin 1⟩
      ⟨XF.fin 0, XF.fin 0, XF.fin 0⟩ ⟨XF.fin 8, XF.fin 8, XF.fin 8⟩ =
      (XF.fmax (XF.fmin (XF.fin ((0 - 4) / 1)) (XF.fin ((8 - 4) / 1)))
        (XF.fmin (XF.fin ((0 - -10) / 1)) (XF.fin ((8 - -10) / 1))),
       XF.fmin (XF.fmax (XF.fin ((0 - 4) / 1)) (XF.fin ((8 - 4) / 1)))
        (XF.fmax (XF.fin ((0 - -10) / 1)) (XF.fin ((8 - -10) / 1)))) ∧
    intersectAABB ⟨XF.fin 4, XF.fin 4, XF.fin 4⟩ ⟨XF.fin 1, XF.fin 1, XF.fin 0⟩
      ⟨XF.fin 0, XF.fin 0, XF.fin 0⟩ ⟨XF.fin 8, XF.fin 8, XF.fin 8⟩ =
      (XF.fmax (XF.fmin (XF.fin ((0 - 4) / 1)) (XF.fin ((8 - 4) / 1)))
        (XF.fmin (XF.fin ((0 - 4) / 1)) (XF.fin ((8 - 4) / 1))),
       XF.fmin (XF.fmax (XF.fin ((0 - 4) / 1)) (XF.fin ((8 - 4) / 1)))
        (XF.fmax (XF.fin ((0 - 4) / 1)) (XF.fin ((8 - 4) / 1)))) :=
  ⟨claim_C5_zero_direction_safety.1 ⟨XF.fin 0, XF.fin 1, XF.fin 1⟩ rfl,
    claim_C5_zero_direction_safety.2.1 ⟨XF.fin 1, XF.fin 0, XF.fin 1⟩ rfl,
    claim_C5_zero_direction_safety.2.2.1 ⟨XF.fin 1, XF.fin 1, XF.fin 0⟩ rfl,
    claim_C5_zero_direction_safety.2.2.2.1 ⟨XF.fin 0, XF.fin 1, XF.fin 1⟩
      ⟨XF.fin 0, XF.fin 0, XF.fin 0⟩ ⟨XF.inf, XF.fin 1, XF.fin 1⟩ ⟨0, 0, 0⟩ 0
      rfl rfl rfl,
    claim_C5_zero_direction_safety.2.2.2.2.1 ⟨XF.fin 1, XF.fin 0, XF.fin 1⟩
      ⟨XF.fin 0, XF.fin 0, XF.fin 0⟩ ⟨XF.fin 1, XF.inf, XF.fin 1⟩ ⟨0, 0, 0⟩ 0
      rfl rfl rfl,
    claim_C5_zero_direction_safety.2.2.2.2.2.1 ⟨XF.fin 1, XF.fin 1, XF.fin 0⟩
      ⟨XF.fin 0, XF.fin 0, XF.fin 0⟩ ⟨XF.fin 1, XF.fin 1, XF.inf⟩ ⟨0, 0, 0⟩ 0
      rfl rfl rfl,
    claim_C5_zero_direction_safety.2.2.2.2.2.2.1 ⟨XF.inf, XF.fin 1, XF.fin 2⟩
      ⟨XF.inf, XF.fin 1, XF.fin 1⟩ ⟨0, 0, 0⟩ ⟨0, 1, 1⟩ rfl,
    claim_C5_zero_direction_safety.2.2.2.2.2.2.2.1 ⟨XF.fin 1, XF.inf, XF.fin 2⟩
      ⟨XF.fin 1, XF.inf, XF.fin 1⟩ ⟨0, 0, 0⟩ ⟨1, 0, 1⟩ rfl,
    claim_C5_zero_direction_safety.2.2.2.2.2.2.2.2.1 ⟨XF.fin 1, XF.fin 2, XF.inf⟩
      ⟨XF.fin 1, XF.fin 1, XF.inf⟩ ⟨0, 0, 0⟩ ⟨1, 1, 0⟩ 2 rfl rfl,
    claim_C5_zero_direction_safety.2.2.2.2.2.2.2.2.2.1 4 4 (-10) 1 1 0 0 0 8 8 8
      (by norm_num) (by norm_num) (by norm_num) (by norm_num),
    claim_C5_zero_direction_safety.2.2.2.2.2.2.2.2.2.2.1 4 4 (-10) 1 1 0 0 0 8 8 8
      (by norm_num) (by norm_num) (by norm_num) (by norm_num),
    claim_C5_zero_direction_safety.2.2.2.2.2.2.2.2.2.2.2 4 4 4 1 1 0 0 0 8 8 8
      (by norm_num) (by norm_num) (by norm_num) (by norm_num)⟩
